import Mathlib

/-!
Verification of the starlite ASGI routing trie and middleware-stack builder.

This file shallowly embeds the functions of
src/starlite/asgi/routing_trie/mapping.py (add_mount_route,
add_route_to_trie, configure_node, build_route_middleware_stack) and the
data they operate on. Python objects that are mutated in place and shared
by reference (trie nodes) are represented by an arena: a list of node
records addressed by index, threaded through every operation as explicit
state. Python dicts become association lists with in-place update
semantics (upsert), Python sets become duplicate-free lists.

Collaborator code that the repository ships but that is not part of the
provided source tree (the routing-trie types module with create_node, the
asgi utils module with wrap_in_exception_handler, and the route-handler
resolution methods) is modelled from the specification; each such
definition carries a doc comment starting with "Modelled from the spec".
-/

set_option autoImplicit false

/-- Declared type of a path parameter. The source only ever distinguishes
the path-remainder type (pathlib.Path, which makes a parameter greedy)
from every other declared type; the other variants keep the embedding
honest about parameters carrying a concrete type. -/
inductive ParamType where
  | path
  | str
  | int
  | float
  | uuid
  | date
  | other (tag : Nat)
deriving DecidableEq, Repr

/-- Modelled from the spec: PathParameterDefinition from
starlite.types.internal_types (not under src): a parameter's name, its
full declaration text, and its declared type. -/
structure PathParameterDefinition where
  name : String
  full : String
  type : ParamType
deriving DecidableEq, Repr

/-- One decomposed component of a route path: a literal segment string or
a path-parameter definition. -/
inductive PathComponent where
  | literal (segment : String)
  | param (d : PathParameterDefinition)
deriving DecidableEq, Repr

/-- Key into a trie node's children mapping. Python keys the dict with
plain strings (literal segments and whole plain-route paths), with the
PathParameterSentinel class object, or - for a mount path component that
is a parameter definition - with the definition object itself. -/
inductive NodeKey where
  | literal (segment : String)
  | paramSentinel
  | paramDefKey (d : PathParameterDefinition)
deriving DecidableEq, Repr

/-- One entry of a route handler's resolved middleware list. The source
distinguishes a bare callable factory from an iterable (factory, kwargs)
pair via hasattr(middleware, "__iter__"); factories and kwarg bundles are
abstracted to numeric identities. -/
inductive MiddlewareItem where
  | callable (factory : Nat)
  | withKwargs (factory : Nat) (kwargs : Nat)
deriving DecidableEq, Repr

/-- Modelled from the spec: the route-handler objects (not under src) as
seen by the trie builder: an identity, the results of the
resolve_exception_handlers and resolve_middleware methods, and the
is_mount / is_static markers carried by ASGI route handlers. Exception
handler mappings are abstracted to a numeric identity. -/
structure RouteHandler where
  hid : Nat
  exception_handlers : Nat
  middleware : List MiddlewareItem
  is_mount : Bool
  is_static : Bool
deriving DecidableEq, Repr

/-- Modelled from the spec: resolve_exception_handlers() returns the
precedence-resolved exception-handler mapping of the handler. -/
def RouteHandler.resolve_exception_handlers (h : RouteHandler) : Nat :=
  h.exception_handlers

/-- Modelled from the spec: resolve_middleware() returns the handler's
resolved middleware list, ordered so that iterating it and wrapping
successively leaves the first-declared middleware outermost. -/
def RouteHandler.resolve_middleware (h : RouteHandler) : List MiddlewareItem :=
  h.middleware

/-- The composed ASGI callable produced by the middleware-stack builder,
represented syntactically: each middleware class application becomes a
constructor around the wrapped app, and route.handle is the leaf. -/
inductive ASGIApp where
  | routeHandle (handle : Nat)
  | exceptionHandlerMiddleware (debug : Bool) (handlers : Nat) (app : ASGIApp)
  | csrfMiddleware (config : Nat) (app : ASGIApp)
  | compressionMiddleware (config : Nat) (app : ASGIApp)
  | allowedHostsMiddleware (config : Nat) (app : ASGIApp)
  | userMiddleware (factory : Nat) (app : ASGIApp)
  | userMiddlewareKw (factory : Nat) (kwargs : Nat) (app : ASGIApp)
deriving DecidableEq, Repr

/-- Modelled from the spec: wrap_in_exception_handler from
starlite.asgi.utils (not under src) wraps an app in the
exception-handling middleware constructed with the given debug flag and
exception-handler mapping. -/
def wrap_in_exception_handler (debug : Bool) (app : ASGIApp) (exception_handlers : Nat) : ASGIApp :=
  ASGIApp.exceptionHandlerMiddleware debug exception_handlers app

/-- The Starlite application fields read by the stack builder. Configs
are abstracted to numeric identities; an Option none models a config that
is absent or falsy (None, or an empty allowed-hosts list). -/
structure Starlite where
  debug : Bool
  csrf_config : Option Nat
  compression_config : Option Nat
  allowed_hosts : Option Nat
deriving DecidableEq, Repr

/-- Data of an HTTPRoute as read by the trie builder. route_handler_map
maps each HTTP method to a pair whose first element is the route handler
(the second tuple element is ignored by configure_node and abstracted to
a number). handle is the identity of the bound route.handle method. -/
structure HTTPRouteData where
  path : String
  path_components : List PathComponent
  path_parameters : List PathParameterDefinition
  route_handler_map : List (String × (RouteHandler × Nat))
  handle : Nat
deriving DecidableEq, Repr

/-- Data of a WebSocketRoute as read by the trie builder. WebSocket route
handlers do not define is_mount or is_static, so the getattr default of
False applies to them (see Route.is_mount). -/
structure WebSocketRouteData where
  path : String
  path_components : List PathComponent
  path_parameters : List PathParameterDefinition
  route_handler : RouteHandler
  handle : Nat
deriving DecidableEq, Repr

/-- Data of an ASGIRoute as read by the trie builder. -/
structure ASGIRouteData where
  path : String
  path_components : List PathComponent
  path_parameters : List PathParameterDefinition
  route_handler : RouteHandler
  handle : Nat
deriving DecidableEq, Repr

/-- The union of the three route kinds accepted by add_route_to_trie. -/
inductive Route where
  | http (r : HTTPRouteData)
  | websocket (r : WebSocketRouteData)
  | asgi (r : ASGIRouteData)
deriving DecidableEq, Repr

def Route.path : Route → String
  | Route.http r => r.path
  | Route.websocket r => r.path
  | Route.asgi r => r.path

def Route.path_components : Route → List PathComponent
  | Route.http r => r.path_components
  | Route.websocket r => r.path_components
  | Route.asgi r => r.path_components

def Route.path_parameters : Route → List PathParameterDefinition
  | Route.http r => r.path_parameters
  | Route.websocket r => r.path_parameters
  | Route.asgi r => r.path_parameters

def Route.handle : Route → Nat
  | Route.http r => r.handle
  | Route.websocket r => r.handle
  | Route.asgi r => r.handle

/-- The mount test of add_route_to_trie: hasattr(route, "route_handler")
and getattr(route.route_handler, "is_mount", False). HTTPRoute has no
route_handler attribute and WebSocket handlers have no is_mount
attribute, so only an ASGI route can be a mount. -/
def Route.is_mount : Route → Bool
  | Route.asgi r => r.route_handler.is_mount
  | _ => false

/-- Python dict lookup on an association list. -/
def lookupKey {α β : Type} [DecidableEq α] (l : List (α × β)) (k : α) : Option β :=
  match l with
  | [] => none
  | (k', v) :: rest => if k = k' then some v else lookupKey rest k

/-- Python dict assignment d[k] = v on an association list: replace the
value in place when the key is present, append the pair otherwise. -/
def upsert {α β : Type} [DecidableEq α] (l : List (α × β)) (k : α) (v : β) : List (α × β) :=
  match l with
  | [] => [(k, v)]
  | (k', v') :: rest => if k = k' then (k, v) :: rest else (k', v') :: upsert rest k v

/-- Python set add on a duplicate-free list. -/
def setInsert {α : Type} [DecidableEq α] (l : List α) (a : α) : List α :=
  if a ∈ l then l else l ++ [a]

/-- Replace the element at an index by the image under f; out-of-range
indices leave the list unchanged. -/
def modifyAt {α : Type} (l : List α) (i : Nat) (f : α → α) : List α :=
  match l, i with
  | [], _ => []
  | a :: rest, 0 => f a :: rest
  | a :: rest, i + 1 => a :: modifyAt rest i f

/-- The pair stored per connection-kind key on a trie node: the composed
middleware stack and the original unwrapped handler. -/
structure ASGIHandlerTuple where
  asgi_app : ASGIApp
  handler : RouteHandler
deriving DecidableEq, Repr

/-- A trie node. children maps keys to arena indices of child nodes;
path_parameters is an Option so that an unset mapping (none) is
distinguishable from a set one, matching the truthiness test in
configure_node. -/
structure RouteTrieNode where
  asgi_handlers : List (String × ASGIHandlerTuple)
  child_keys : List NodeKey
  children : List (NodeKey × Nat)
  is_asgi : Bool
  is_mount : Bool
  is_static : Bool
  is_path_param_node : Bool
  is_path_type : Bool
  path_parameters : Option (List (String × List PathParameterDefinition))
deriving DecidableEq, Repr

/-- Modelled from the spec: create_node from
starlite.asgi.routing_trie.types (not under src) returns a fresh node
with empty children, an empty child-key set, empty handler and parameter
mappings, and every flag false. -/
def create_node : RouteTrieNode :=
  { asgi_handlers := []
    child_keys := []
    children := []
    is_asgi := false
    is_mount := false
    is_static := false
    is_path_param_node := false
    is_path_type := false
    path_parameters := none }

/-- The mutable state threaded through the builder: the node arena (a
node object is its index), and the two auxiliary indexes mount_routes and
plain_routes. -/
structure BuildState where
  nodes : List RouteTrieNode
  mount_routes : List (String × Nat)
  plain_routes : List String
deriving DecidableEq, Repr

/-- Dereference a node index; out-of-range indices read as a fresh node
(such indices are never produced by the builder). -/
def BuildState.getNode (st : BuildState) (i : Nat) : RouteTrieNode :=
  st.nodes.getD i create_node

/-- Mutate the node at an index in place. -/
def BuildState.modifyNode (st : BuildState) (i : Nat) (f : RouteTrieNode → RouteTrieNode) : BuildState :=
  { st with nodes := modifyAt st.nodes i f }

/-- Python truthiness of the node.path_parameters attribute: None and an
empty dict are falsy. -/
def ppTruthy : Option (List (String × List PathParameterDefinition)) → Bool
  | none => false
  | some m => !m.isEmpty

/-- Python assignment node.path_parameters[k] = v (the attribute has been
normalized to a dict by configure_node before any assignment runs). -/
def ppAssign (pp : Option (List (String × List PathParameterDefinition)))
    (k : String) (v : List PathParameterDefinition) :
    Option (List (String × List PathParameterDefinition)) :=
  some (upsert (pp.getD []) k v)

/-- Lookup in the node.path_parameters mapping, reading an unset mapping
as empty. -/
def ppLookup (n : RouteTrieNode) (k : String) : Option (List PathParameterDefinition) :=
  lookupKey (n.path_parameters.getD []) k

/-- The children key a mount-route path component is stored under:
components are used as dict keys directly, so a literal segment keys as
itself and a parameter definition keys as the definition object. -/
def mount_component_key : PathComponent → NodeKey
  | PathComponent.literal s => NodeKey.literal s
  | PathComponent.param d => NodeKey.paramDefKey d

/-- The children key a parameterized-route path component descends
through: every parameter component keys as the shared sentinel, a literal
component keys as its segment string. -/
def param_component_key : PathComponent → NodeKey
  | PathComponent.literal s => NodeKey.literal s
  | PathComponent.param _ => NodeKey.paramSentinel

/-- One iteration of the component loop of add_mount_route: descend into
the child for the component, creating it first when absent. -/
def mount_step (st : BuildState) (current : Nat) (component : PathComponent) :
    BuildState × Nat :=
  let key := mount_component_key component
  match lookupKey (st.getNode current).children key with
  | some child => (st, child)
  | none =>
      let stA := { st with nodes := st.nodes ++ [create_node] }
      (stA.modifyNode current fun n => { n with children := upsert n.children key st.nodes.length },
       st.nodes.length)

/-- The component loop of add_mount_route. -/
def mount_walk (st : BuildState) (current : Nat) : List PathComponent → BuildState × Nat
  | [] => (st, current)
  | component :: rest =>
      mount_walk (mount_step st current component).1 (mount_step st current component).2 rest

/-- Embedding of add_mount_route. The Python local variable root_node is
rebound to current_node before the walk when the full path key is absent,
so the full-path registration always happens on the node the walk started
from in that case. -/
def add_mount_route (st : BuildState) (current_node : Nat) (root_node : Nat)
    (route : ASGIRouteData) : BuildState × Nat :=
  let pathKey := NodeKey.literal route.path
  let w :=
    if (lookupKey (st.getNode current_node).children pathKey).isSome then
      (st, root_node, current_node)
    else
      let w0 := mount_walk st current_node route.path_components
      (w0.1, current_node, w0.2)
  let st1 := w.1
  let root1 := w.2.1
  let cur1 := w.2.2
  let st2 := st1.modifyNode cur1 fun n =>
    { n with is_mount := true, is_static := route.route_handler.is_static }
  if route.path ≠ "/" then
    let st3 := { st2 with mount_routes := upsert st2.mount_routes route.path cur1 }
    let st4 := st3.modifyNode root1 fun n => { n with children := upsert n.children pathKey cur1 }
    (st4, cur1)
  else
    ({ st2 with mount_routes := upsert st2.mount_routes route.path cur1 }, cur1)

/-- One iteration of the component loop of the parameterized branch of
add_route_to_trie: mark the current node as a parameter node when the
component is a parameter, descend (creating the child when absent),
refresh the current node's child_keys from its children, and mark the
reached child is_path_type when the parameter's declared type is the
path-remainder type. -/
def param_step (st0 : BuildState) (current : Nat) (component : PathComponent) :
    BuildState × Nat :=
  let st1 :=
    match component with
    | PathComponent.param _ =>
        st0.modifyNode current fun n => { n with is_path_param_node := true }
    | PathComponent.literal _ => st0
  let key := param_component_key component
  let st2 :=
    match lookupKey (st1.getNode current).children key with
    | some _ => st1
    | none =>
        let stA := { st1 with nodes := st1.nodes ++ [create_node] }
        stA.modifyNode current fun n => { n with children := upsert n.children key st1.nodes.length }
  let next_node :=
    match lookupKey (st1.getNode current).children key with
    | some child => child
    | none => st1.nodes.length
  let st3 := st2.modifyNode current fun n => { n with child_keys := n.children.map Prod.fst }
  match component with
  | PathComponent.param d =>
      if d.type = ParamType.path then
        (st3.modifyNode next_node fun n => { n with is_path_type := true }, next_node)
      else (st3, next_node)
  | PathComponent.literal _ => (st3, next_node)

/-- The component loop of the parameterized branch of add_route_to_trie. -/
def param_walk (st : BuildState) (current : Nat) : List PathComponent → BuildState × Nat
  | [] => (st, current)
  | component :: rest =>
      param_walk (param_step st current component).1 (param_step st current component).2 rest

/-- The user-middleware loop body of build_route_middleware_stack: wrap
the current handler in the next middleware, unpacking a (factory, kwargs)
pair when the item is iterable. -/
def wrap_user_middleware (asgi_handler : ASGIApp) (middleware : MiddlewareItem) : ASGIApp :=
  match middleware with
  | MiddlewareItem.withKwargs factory kwargs => ASGIApp.userMiddlewareKw factory kwargs asgi_handler
  | MiddlewareItem.callable factory => ASGIApp.userMiddleware factory asgi_handler

/-- Embedding of build_route_middleware_stack: wrap route.handle in the
exception-handling middleware, then conditionally in CSRF, compression
and allowed-hosts middleware, then in the handler's resolved middleware,
and finally wrap the entire stack in the exception-handling middleware
again. -/
def build_route_middleware_stack (app : Starlite) (route : Route)
    (route_handler : RouteHandler) : ASGIApp :=
  let asgi_handler := wrap_in_exception_handler app.debug
    (ASGIApp.routeHandle (Route.handle route))
    (RouteHandler.resolve_exception_handlers route_handler)
  let asgi_handler :=
    match app.csrf_config with
    | some config => ASGIApp.csrfMiddleware config asgi_handler
    | none => asgi_handler
  let asgi_handler :=
    match app.compression_config with
    | some config => ASGIApp.compressionMiddleware config asgi_handler
    | none => asgi_handler
  let asgi_handler :=
    match app.allowed_hosts with
    | some config => ASGIApp.allowedHostsMiddleware config asgi_handler
    | none => asgi_handler
  let asgi_handler :=
    (RouteHandler.resolve_middleware route_handler).foldl wrap_user_middleware asgi_handler
  wrap_in_exception_handler app.debug asgi_handler
    (RouteHandler.resolve_exception_handlers route_handler)

/-- The body of the method loop of configure_node for an HTTP route:
store the composed stack and the original handler under the method key,
and the route's ordered path parameters under the same key. -/
def http_configure_step (app : Starlite) (route : Route) (r : HTTPRouteData) (node : Nat)
    (acc : BuildState) (entry : String × (RouteHandler × Nat)) : BuildState :=
  acc.modifyNode node fun n =>
    { n with
      asgi_handlers := upsert n.asgi_handlers entry.1
        { asgi_app := build_route_middleware_stack app route entry.2.1
          handler := entry.2.1 }
      path_parameters := ppAssign n.path_parameters entry.1 r.path_parameters }

/-- The opening normalization of configure_node: when the node's
path_parameters attribute is unset or empty, replace it by a fresh empty
dict; otherwise leave the node untouched. -/
def normalizePP (n : RouteTrieNode) : RouteTrieNode :=
  if ppTruthy n.path_parameters then n else { n with path_parameters := some [] }

/-- Embedding of configure_node: normalize an unset or empty
path_parameters attribute to an empty dict, then store the composed stack
and parameter metadata under each key the route declares, setting is_asgi
for a raw-stream route. -/
def configure_node (app : Starlite) (route : Route) (st : BuildState) (node : Nat) :
    BuildState :=
  let st1 := st.modifyNode node normalizePP
  match route with
  | Route.http r =>
      r.route_handler_map.foldl (http_configure_step app route r node) st1
  | Route.websocket r =>
      st1.modifyNode node fun n =>
        { n with
          asgi_handlers := upsert n.asgi_handlers "websocket"
            { asgi_app := build_route_middleware_stack app route r.route_handler
              handler := r.route_handler }
          path_parameters := ppAssign n.path_parameters "websocket" r.path_parameters }
  | Route.asgi r =>
      st1.modifyNode node fun n =>
        { n with
          asgi_handlers := upsert n.asgi_handlers "asgi"
            { asgi_app := build_route_middleware_stack app route r.route_handler
              handler := r.route_handler }
          path_parameters := ppAssign n.path_parameters "asgi" r.path_parameters
          is_asgi := true }

/-- The two non-mount branches of add_route_to_trie: either register a
plain route as a direct child of the root keyed by the whole path, or
walk the components inserting parameter-aware nodes. -/
def add_plain_or_param (app : Starlite) (st : BuildState) (root_node : Nat)
    (route : Route) : BuildState × Nat :=
  if (Route.path_parameters route).isEmpty then
    let st1 := { st with plain_routes := setInsert st.plain_routes (Route.path route) }
    match lookupKey (st.getNode root_node).children (NodeKey.literal (Route.path route)) with
    | some child => (configure_node app route st1 child, child)
    | none =>
        let stA := { st1 with nodes := st1.nodes ++ [create_node] }
        let st2 := stA.modifyNode root_node fun n =>
          { n with children := upsert n.children (NodeKey.literal (Route.path route)) st1.nodes.length }
        (configure_node app route st2 st1.nodes.length, st1.nodes.length)
  else
    let w := param_walk st root_node (Route.path_components route)
    (configure_node app route w.1 w.2, w.2)

/-- Embedding of add_route_to_trie: dispatch on the three route kinds
(mount, parameter-free, parameterized) and configure the reached terminal
node. The walk starts at current_node which is initialized to root_node. -/
def add_route_to_trie (app : Starlite) (st : BuildState) (root_node : Nat)
    (route : Route) : BuildState × Nat :=
  match route with
  | Route.asgi r =>
      if r.route_handler.is_mount then
        let w := add_mount_route st root_node root_node r
        (configure_node app (Route.asgi r) w.1 w.2, w.2)
      else add_plain_or_param app st root_node (Route.asgi r)
  | r => add_plain_or_param app st root_node r

/-- Follow existing mount-keyed child edges from a node along a component
list. -/
def follow_mount_path (st : BuildState) (node : Nat) : List PathComponent → Option Nat
  | [] => some node
  | component :: rest =>
      match lookupKey (st.getNode node).children (mount_component_key component) with
      | some child => follow_mount_path st child rest
      | none => none

/-- Follow existing parameter-keyed child edges from a node along a
component list: a parameter component always descends through the
sentinel edge regardless of its name or declared type. -/
def follow_param_path (st : BuildState) (node : Nat) : List PathComponent → Option Nat
  | [] => some node
  | component :: rest =>
      match lookupKey (st.getNode node).children (param_component_key component) with
      | some child => follow_param_path st child rest
      | none => none

/-- Number of nodes the mount walk must create: follow existing edges;
from the first absent component on, every remaining component needs a
fresh node. -/
def mount_missing (st : BuildState) (node : Nat) : List PathComponent → Nat
  | [] => 0
  | component :: rest =>
      match lookupKey (st.getNode node).children (mount_component_key component) with
      | some child => mount_missing st child rest
      | none => rest.length + 1

/-- One layer of a linearized middleware stack, outermost first. -/
inductive Layer where
  | exc (debug : Bool) (handlers : Nat)
  | csrf (config : Nat)
  | compression (config : Nat)
  | allowedHosts (config : Nat)
  | user (factory : Nat)
  | userKw (factory : Nat) (kwargs : Nat)
  | handle (h : Nat)
deriving DecidableEq, Repr

/-- Linearize a composed ASGI stack into its layers, outermost first; the
resulting order is the order an inbound request traverses the stack. -/
def layers : ASGIApp → List Layer
  | ASGIApp.routeHandle h => [Layer.handle h]
  | ASGIApp.exceptionHandlerMiddleware d eh app => Layer.exc d eh :: layers app
  | ASGIApp.csrfMiddleware c app => Layer.csrf c :: layers app
  | ASGIApp.compressionMiddleware c app => Layer.compression c :: layers app
  | ASGIApp.allowedHostsMiddleware c app => Layer.allowedHosts c :: layers app
  | ASGIApp.userMiddleware f app => Layer.user f :: layers app
  | ASGIApp.userMiddlewareKw f kw app => Layer.userKw f kw :: layers app

/-- The layer a user middleware item contributes. -/
def layerOf : MiddlewareItem → Layer
  | MiddlewareItem.callable f => Layer.user f
  | MiddlewareItem.withKwargs f kw => Layer.userKw f kw

/-- The connection-kind keys configure_node writes for a route. -/
def declared_kind_keys : Route → List String
  | Route.http r => r.route_handler_map.map Prod.fst
  | Route.websocket _ => ["websocket"]
  | Route.asgi _ => ["asgi"]

/-- The state the application starts trie construction from: a single
fresh root node (index 0) and empty auxiliary indexes. -/
def initialBuildState : BuildState :=
  { nodes := [create_node], mount_routes := [], plain_routes := [] }

/-- Feed a list of routes through add_route_to_trie starting from a fresh
root. -/
def buildAll (app : Starlite) (routes : List Route) : BuildState :=
  routes.foldl (fun st route => (add_route_to_trie app st 0 route).1) initialBuildState

/-- Well-formedness of an arena state: every child edge points inside the
arena. -/
def WFState (st : BuildState) : Prop :=
  ∀ i k j, lookupKey (st.getNode i).children k = some j → j < st.nodes.length

/-- The parameter-node invariant of the spec: a node's is_path_param_node
flag is true exactly when the parameter sentinel is among its children
keys. -/
def PInv (st : BuildState) : Prop :=
  ∀ i, ((st.getNode i).is_path_param_node = true ↔
    NodeKey.paramSentinel ∈ (st.getNode i).children.map Prod.fst)

/-- The child-keys invariant actually maintained by the code: every key
recorded in a node's child_keys snapshot is a key of its children
mapping (the converse fails for the plain-route and mount branches,
which never refresh child_keys). -/
def QInv (st : BuildState) : Prop :=
  ∀ i k, k ∈ (st.getNode i).child_keys → k ∈ (st.getNode i).children.map Prod.fst

/-- Concrete application fixture: CSRF configured, no compression, no
allowed hosts. -/
def app0 : Starlite :=
  { debug := false, csrf_config := some 7, compression_config := none, allowed_hosts := none }

/-- Concrete application fixture with no optional config at all. -/
def appPlain : Starlite :=
  { debug := false, csrf_config := none, compression_config := none, allowed_hosts := none }

/-- Concrete route handler fixture with one resolved middleware item. -/
def handler0 : RouteHandler :=
  { hid := 1, exception_handlers := 5, middleware := [MiddlewareItem.callable 3],
    is_mount := false, is_static := false }

/-- Concrete mounted-app handler fixture. -/
def mountHandler : RouteHandler :=
  { hid := 2, exception_handlers := 6, middleware := [], is_mount := true, is_static := true }

/-- Concrete WebSocket route fixture. -/
def wsRoute0 : Route :=
  Route.websocket
    { path := "/ws", path_components := [PathComponent.literal "ws"],
      path_parameters := [], route_handler := handler0, handle := 9 }

/-- Concrete parameter-free HTTP route fixture. -/
def httpPlainRoute : Route :=
  Route.http
    { path := "/p", path_components := [PathComponent.literal "p"],
      path_parameters := [], route_handler_map := [("GET", (handler0, 0))], handle := 4 }

/-- Concrete path-remainder parameter fixture. -/
def ppdRest : PathParameterDefinition :=
  { name := "rest", full := "rest:path", type := ParamType.path }

/-- Concrete integer parameter fixture. -/
def ppdId : PathParameterDefinition :=
  { name := "ident", full := "ident:int", type := ParamType.int }

/-- Concrete parameterized HTTP route fixture: /files/{rest:path}. -/
def httpParamRoute : Route :=
  Route.http
    { path := "/files/{rest:path}",
      path_components := [PathComponent.literal "files", PathComponent.param ppdRest],
      path_parameters := [ppdRest],
      route_handler_map := [("GET", (handler0, 0))], handle := 8 }

/-- Concrete parameterized HTTP route fixture with a non-greedy
parameter: /users/{ident:int}. -/
def httpIntParamRoute : Route :=
  Route.http
    { path := "/users/{ident:int}",
      path_components := [PathComponent.literal "users", PathComponent.param ppdId],
      path_parameters := [ppdId],
      route_handler_map := [("GET", (handler0, 0))], handle := 3 }

/-- Concrete mount route fixture at /m/a. -/
def mountRouteData : ASGIRouteData :=
  { path := "/m/a",
    path_components := [PathComponent.literal "m", PathComponent.literal "a"],
    path_parameters := [], route_handler := mountHandler, handle := 11 }

/-- Concrete mount route fixture whose full path is pre-registered in the
fixture state stateWithMChild. -/
def mountRouteData2 : ASGIRouteData :=
  { path := "/m",
    path_components := [PathComponent.literal "m"],
    path_parameters := [], route_handler := mountHandler, handle := 12 }

/-- Fixture state: a root whose children already contain the full path
key "/m" pointing at node 1. -/
def rootWithMChild : RouteTrieNode :=
  { create_node with
    children := [(NodeKey.literal "/m", 1)]
    child_keys := [NodeKey.literal "/m"] }

def stateWithMChild : BuildState :=
  { nodes := [rootWithMChild, create_node], mount_routes := [], plain_routes := [] }

theorem lookupKey_upsert_self {α β : Type} [DecidableEq α] (l : List (α × β)) (k : α) (v : β) :
    lookupKey (upsert l k v) k = some v := by
  induction l with
  | nil => simp [upsert, lookupKey]
  | cons p rest ih =>
      obtain ⟨k', v'⟩ := p
      by_cases h : k = k'
      · simp [upsert, h, lookupKey]
      · simp [upsert, h, lookupKey, ih]

theorem lookupKey_upsert_ne {α β : Type} [DecidableEq α] (l : List (α × β)) (k k' : α) (v : β)
    (h : k' ≠ k) : lookupKey (upsert l k v) k' = lookupKey l k' := by
  induction l with
  | nil => simp [upsert, lookupKey, h]
  | cons p rest ih =>
      obtain ⟨k0, v0⟩ := p
      by_cases hk : k = k0
      · subst hk
        simp [upsert, lookupKey, h]
      · by_cases hk' : k' = k0
        · simp [upsert, hk, lookupKey, hk']
        · simp [upsert, hk, lookupKey, hk', ih]

theorem mem_map_fst_upsert_iff {α β : Type} [DecidableEq α] (l : List (α × β)) (k k' : α) (v : β) :
    k' ∈ (upsert l k v).map Prod.fst ↔ k' ∈ l.map Prod.fst ∨ k' = k := by
  induction l with
  | nil => simp [upsert]
  | cons p rest ih =>
      obtain ⟨k0, v0⟩ := p
      by_cases hk : k = k0
      · subst hk
        simp [upsert]
        tauto
      · simp [upsert, hk, ih]
        tauto

theorem mem_map_fst_of_lookup {α β : Type} [DecidableEq α] (l : List (α × β)) (k : α) (v : β)
    (h : lookupKey l k = some v) : k ∈ l.map Prod.fst := by
  induction l with
  | nil => simp [lookupKey] at h
  | cons p rest ih =>
      obtain ⟨k0, v0⟩ := p
      by_cases hk : k = k0
      · simp [hk]
      · simp [lookupKey, hk] at h
        simp [ih h]

theorem lookup_none_of_not_mem {α β : Type} [DecidableEq α] (l : List (α × β)) (k : α)
    (h : k ∉ l.map Prod.fst) : lookupKey l k = none := by
  induction l with
  | nil => rfl
  | cons p rest ih =>
      obtain ⟨k0, v0⟩ := p
      have hne : k ≠ k0 := by
        intro he
        exact h (by simp [he])
      have hrest : k ∉ rest.map Prod.fst := by
        intro hm
        exact h (by simp [hm])
      simp [lookupKey, hne, ih hrest]

theorem mem_setInsert_self {α : Type} [DecidableEq α] (l : List α) (a : α) :
    a ∈ setInsert l a := by
  by_cases h : a ∈ l <;> simp [setInsert, h]

theorem mem_setInsert_of_mem {α : Type} [DecidableEq α] (l : List α) (a b : α) (h : b ∈ l) :
    b ∈ setInsert l a := by
  by_cases ha : a ∈ l <;> simp [setInsert, ha, h]

theorem length_modifyAt {α : Type} (l : List α) (i : Nat) (f : α → α) :
    (modifyAt l i f).length = l.length := by
  induction l generalizing i with
  | nil => rfl
  | cons a rest ih =>
      cases i with
      | zero => rfl
      | succ j => simp [modifyAt, ih]

theorem modifyAt_out {α : Type} (l : List α) (i : Nat) (f : α → α) (h : l.length ≤ i) :
    modifyAt l i f = l := by
  induction l generalizing i with
  | nil => rfl
  | cons a rest ih =>
      cases i with
      | zero => simp at h
      | succ j =>
          simp at h
          simp [modifyAt, ih j h]

theorem getD_modifyAt_self {α : Type} (l : List α) (i : Nat) (f : α → α) (d : α)
    (h : i < l.length) : (modifyAt l i f).getD i d = f (l.getD i d) := by
  induction l generalizing i with
  | nil => simp at h
  | cons a rest ih =>
      cases i with
      | zero => rfl
      | succ j =>
          simp at h
          simpa [modifyAt] using ih j h

theorem getD_modifyAt_ne {α : Type} (l : List α) (i j : Nat) (f : α → α) (d : α)
    (h : j ≠ i) : (modifyAt l i f).getD j d = l.getD j d := by
  induction l generalizing i j with
  | nil => rfl
  | cons a rest ih =>
      cases i with
      | zero =>
          cases j with
          | zero => exact absurd rfl h
          | succ j' => rfl
      | succ i' =>
          cases j with
          | zero => rfl
          | succ j' =>
              have : j' ≠ i' := fun he => h (by rw [he])
              simpa [modifyAt] using ih i' j' this

theorem getD_out {α : Type} (l : List α) (i : Nat) (d : α) (h : l.length ≤ i) :
    l.getD i d = d := by
  induction l generalizing i with
  | nil => cases i <;> rfl
  | cons a rest ih =>
      cases i with
      | zero => simp at h
      | succ j =>
          simp at h
          simpa using ih j h

theorem getD_append_default {α : Type} (l : List α) (d : α) (i : Nat) :
    (l ++ [d]).getD i d = l.getD i d := by
  induction l generalizing i with
  | nil => cases i <;> rfl
  | cons a rest ih =>
      cases i with
      | zero => rfl
      | succ j => simpa using ih j

theorem getD_append_len {α : Type} (l : List α) (a d : α) :
    (l ++ [a]).getD l.length d = a := by
  induction l with
  | nil => rfl
  | cons b rest ih => simp [ih]

theorem getNode_modifyNode_self (st : BuildState) (i : Nat) (f : RouteTrieNode → RouteTrieNode)
    (h : i < st.nodes.length) : (st.modifyNode i f).getNode i = f (st.getNode i) :=
  getD_modifyAt_self st.nodes i f create_node h

theorem getNode_modifyNode_ne (st : BuildState) (i j : Nat) (f : RouteTrieNode → RouteTrieNode)
    (h : j ≠ i) : (st.modifyNode i f).getNode j = st.getNode j :=
  getD_modifyAt_ne st.nodes i j f create_node h

theorem modifyNode_out (st : BuildState) (i : Nat) (f : RouteTrieNode → RouteTrieNode)
    (h : st.nodes.length ≤ i) : st.modifyNode i f = st := by
  cases st
  simp [BuildState.modifyNode, modifyAt_out _ _ _ h]

theorem length_modifyNode (st : BuildState) (i : Nat) (f : RouteTrieNode → RouteTrieNode) :
    (st.modifyNode i f).nodes.length = st.nodes.length :=
  length_modifyAt st.nodes i f

theorem getNode_out (st : BuildState) (i : Nat) (h : st.nodes.length ≤ i) :
    st.getNode i = create_node :=
  getD_out st.nodes i create_node h

theorem getNode_alloc (st : BuildState) (i : Nat) :
    (({ st with nodes := st.nodes ++ [create_node] } : BuildState)).getNode i = st.getNode i :=
  getD_append_default st.nodes create_node i

theorem getNode_alloc_fresh (st : BuildState) :
    (({ st with nodes := st.nodes ++ [create_node] } : BuildState)).getNode st.nodes.length =
      create_node :=
  getD_append_len st.nodes create_node create_node

theorem getNode_modifyNode_proj {γ : Type} (p : RouteTrieNode → γ) (st : BuildState) (i : Nat)
    (f : RouteTrieNode → RouteTrieNode) (hf : ∀ n, p (f n) = p n) (j : Nat) :
    p ((st.modifyNode i f).getNode j) = p (st.getNode j) := by
  by_cases hi : i < st.nodes.length
  · by_cases hj : j = i
    · subst hj
      rw [getNode_modifyNode_self st j f hi, hf]
    · rw [getNode_modifyNode_ne st i j f hj]
  · rw [modifyNode_out st i f (Nat.le_of_not_lt hi)]

theorem getNode_initial (i : Nat) : initialBuildState.getNode i = create_node := by
  cases i with
  | zero => rfl
  | succ j => cases j <;> rfl

theorem WFState_initial : WFState initialBuildState := by
  intro i k j h
  rw [getNode_initial] at h
  simp [create_node, lookupKey] at h


theorem layers_foldl_user (ms : List MiddlewareItem) (acc : ASGIApp) :
    layers (ms.foldl wrap_user_middleware acc) = ms.reverse.map layerOf ++ layers acc := by
  induction ms generalizing acc with
  | nil => simp
  | cons m rest ih =>
      have hm : layers (wrap_user_middleware acc m) = layerOf m :: layers acc := by
        cases m <;> rfl
      simp [List.foldl, ih, hm]

/-- The exact outermost-first linearization of every stack the builder
produces. Note that the user-middleware loop runs after the CSRF,
compression and allowed-hosts wraps, so the route-specific middleware end
up outside those three layers, directly inside the outer exception
wrapper. -/
theorem layers_build (app : Starlite) (route : Route) (h : RouteHandler) :
    layers (build_route_middleware_stack app route h) =
      Layer.exc app.debug (RouteHandler.resolve_exception_handlers h) ::
        ((RouteHandler.resolve_middleware h).reverse.map layerOf ++
         (match app.allowed_hosts with
          | some c => [Layer.allowedHosts c]
          | none => []) ++
         (match app.compression_config with
          | some c => [Layer.compression c]
          | none => []) ++
         (match app.csrf_config with
          | some c => [Layer.csrf c]
          | none => []) ++
         [Layer.exc app.debug (RouteHandler.resolve_exception_handlers h),
          Layer.handle (Route.handle route)]) := by
  cases hcs : app.csrf_config <;> cases hcp : app.compression_config <;>
    cases hah : app.allowed_hosts <;>
      simp [build_route_middleware_stack, wrap_in_exception_handler, hcs, hcp, hah,
        layers_foldl_user, layers]

/-- Counterexample to C1 as stated: with CSRF configured and one route
middleware item, the composed stack runs the route middleware BEFORE the
CSRF layer on the way in (the user layer precedes the CSRF layer in the
outermost-first linearization), not after it as the claim asserts. -/
theorem spec_c1_cex :
    layers (build_route_middleware_stack app0 wsRoute0 handler0) =
      [Layer.exc false 5, Layer.user 3, Layer.csrf 7, Layer.exc false 5, Layer.handle 9] ∧
    layers (build_route_middleware_stack app0 wsRoute0 handler0) ≠
      [Layer.exc false 5, Layer.csrf 7, Layer.user 3, Layer.exc false 5, Layer.handle 9] := by
  decide

/-- C1 (amended): for an app with CSRF configured and a handler with at
least one resolved route middleware item, build_route_middleware_stack
places every route-specific middleware OUTSIDE the CSRF layer: the
outermost-first linearization is the outer exception wrapper, then the
route middleware (first declared outermost), then allowed-hosts and
compression when configured, then CSRF, then the inner exception wrapper
directly around route.handle. So the route middleware execute before
CSRF on the way in and after it on the way out, sitting directly inside
the outer exception wrapper rather than closest to the terminal handler. -/
theorem spec_c1 (app : Starlite) (route : Route) (h : RouteHandler) (c : Nat)
    (hcsrf : app.csrf_config = some c) (hmid : RouteHandler.resolve_middleware h ≠ []) :
    layers (build_route_middleware_stack app route h) =
      Layer.exc app.debug (RouteHandler.resolve_exception_handlers h) ::
        ((RouteHandler.resolve_middleware h).reverse.map layerOf ++
         ((match app.allowed_hosts with
           | some a => [Layer.allowedHosts a]
           | none => []) ++
          (match app.compression_config with
           | some a => [Layer.compression a]
           | none => []) ++
          ([Layer.csrf c] ++
           [Layer.exc app.debug (RouteHandler.resolve_exception_handlers h),
            Layer.handle (Route.handle route)]))) := by
  have hb := layers_build app route h
  rw [hcsrf] at hb
  simpa using hb

/-- Witness for the amended C1 at a concrete CSRF-enabled app and a
handler with one middleware item. -/
theorem spec_c1_witness :
    layers (build_route_middleware_stack app0 wsRoute0 handler0) =
      [Layer.exc false 5, Layer.user 3, Layer.csrf 7, Layer.exc false 5, Layer.handle 9] := by
  have h := spec_c1 app0 wsRoute0 handler0 7 (by rfl) (by decide)
  simpa using h

/-- C2: build_route_middleware_stack applies the exception-handling
wrapper exactly twice, both times constructed from the app debug flag and
the exception handlers resolved from the route handler: the outer
instance is the head of the stack, the inner instance directly surrounds
the terminal route.handle invocation, and no other layer of the stack is
an exception-handling wrapper. -/
theorem spec_c2 (app : Starlite) (route : Route) (h : RouteHandler) :
    ∃ mid, layers (build_route_middleware_stack app route h) =
        Layer.exc app.debug (RouteHandler.resolve_exception_handlers h) ::
          (mid ++
            [Layer.exc app.debug (RouteHandler.resolve_exception_handlers h),
             Layer.handle (Route.handle route)]) ∧
      ∀ l ∈ mid, ∀ d e, l ≠ Layer.exc d e := by
  refine ⟨(RouteHandler.resolve_middleware h).reverse.map layerOf ++
          (match app.allowed_hosts with
           | some c => [Layer.allowedHosts c]
           | none => []) ++
          (match app.compression_config with
           | some c => [Layer.compression c]
           | none => []) ++
          (match app.csrf_config with
           | some c => [Layer.csrf c]
           | none => []), ?_, ?_⟩
  · have hb := layers_build app route h
    simpa using hb
  · intro l hl d e
    simp at hl
    rcases hl with hl | hl | hl | hl
    · rcases hl with ⟨m, -, hm⟩
      cases m <;> simp [layerOf] at hm <;> simp [← hm]
    · cases hah : app.allowed_hosts <;> rw [hah] at hl <;> simp at hl
      simp [hl]
    · cases hcp : app.compression_config <;> rw [hcp] at hl <;> simp at hl
      simp [hl]
    · cases hcs : app.csrf_config <;> rw [hcs] at hl <;> simp at hl
      simp [hl]

theorem mount_routes_modifyNode (st : BuildState) (i : Nat) (f : RouteTrieNode → RouteTrieNode) :
    (st.modifyNode i f).mount_routes = st.mount_routes := rfl

theorem plain_routes_modifyNode (st : BuildState) (i : Nat) (f : RouteTrieNode → RouteTrieNode) :
    (st.modifyNode i f).plain_routes = st.plain_routes := rfl

theorem http_foldl_proj {γ : Type} (p : RouteTrieNode → γ)
    (hp : ∀ n ah pp, p { n with asgi_handlers := ah, path_parameters := pp } = p n)
    (app : Starlite) (route : Route) (r : HTTPRouteData) (node : Nat)
    (l : List (String × (RouteHandler × Nat))) (st : BuildState) (i : Nat) :
    p ((l.foldl (http_configure_step app route r node) st).getNode i) = p (st.getNode i) := by
  induction l generalizing st with
  | nil => rfl
  | cons e rest ih =>
      rw [List.foldl_cons, ih]
      exact getNode_modifyNode_proj p st node _ (fun n => hp n _ _) i

theorem http_foldl_state_frame (app : Starlite) (route : Route) (r : HTTPRouteData) (node : Nat)
    (l : List (String × (RouteHandler × Nat))) (st : BuildState) :
    (l.foldl (http_configure_step app route r node) st).nodes.length = st.nodes.length ∧
    (l.foldl (http_configure_step app route r node) st).mount_routes = st.mount_routes ∧
    (l.foldl (http_configure_step app route r node) st).plain_routes = st.plain_routes := by
  induction l generalizing st with
  | nil => exact ⟨rfl, rfl, rfl⟩
  | cons e rest ih =>
      rw [List.foldl_cons]
      have h := ih (http_configure_step app route r node st e)
      refine ⟨?_, ?_, ?_⟩
      · rw [h.1]
        exact length_modifyNode st node _
      · exact h.2.1
      · exact h.2.2

theorem configure_node_proj {γ : Type} (p : RouteTrieNode → γ)
    (hp : ∀ n ah pp ia, p { n with asgi_handlers := ah, path_parameters := pp, is_asgi := ia } = p n)
    (app : Starlite) (route : Route) (st : BuildState) (node i : Nat) :
    p ((configure_node app route st node).getNode i) = p (st.getNode i) := by
  have hp2 : ∀ n ah pp, p { n with asgi_handlers := ah, path_parameters := pp } = p n :=
    fun n ah pp => hp n ah pp n.is_asgi
  have hnorm : ∀ n : RouteTrieNode,
      p (if ppTruthy n.path_parameters then n else { n with path_parameters := some [] }) = p n := by
    intro n
    cases h : ppTruthy n.path_parameters
    · simp only [h, Bool.false_eq_true, if_false]
      exact hp n n.asgi_handlers (some []) n.is_asgi
    · simp only [h, if_true]
  cases route with
  | http r =>
      show p (((r.route_handler_map.foldl (http_configure_step app (Route.http r) r node)
        (st.modifyNode node _))).getNode i) = p (st.getNode i)
      rw [http_foldl_proj p hp2]
      exact getNode_modifyNode_proj p st node _ hnorm i
  | websocket r =>
      show p (((st.modifyNode node _).modifyNode node _).getNode i) = p (st.getNode i)
      rw [getNode_modifyNode_proj p _ node _ (fun n => hp2 n _ _) i]
      exact getNode_modifyNode_proj p st node _ hnorm i
  | asgi r =>
      show p (((st.modifyNode node _).modifyNode node _).getNode i) = p (st.getNode i)
      rw [getNode_modifyNode_proj p _ node _ (fun n => hp n _ _ _) i]
      exact getNode_modifyNode_proj p st node _ hnorm i

theorem configure_node_children (app : Starlite) (route : Route) (st : BuildState) (node i : Nat) :
    ((configure_node app route st node).getNode i).children = (st.getNode i).children :=
  configure_node_proj (fun n => n.children) (fun _ _ _ _ => rfl) app route st node i

theorem configure_node_child_keys (app : Starlite) (route : Route) (st : BuildState) (node i : Nat) :
    ((configure_node app route st node).getNode i).child_keys = (st.getNode i).child_keys :=
  configure_node_proj (fun n => n.child_keys) (fun _ _ _ _ => rfl) app route st node i

theorem configure_node_is_mount (app : Starlite) (route : Route) (st : BuildState) (node i : Nat) :
    ((configure_node app route st node).getNode i).is_mount = (st.getNode i).is_mount :=
  configure_node_proj (fun n => n.is_mount) (fun _ _ _ _ => rfl) app route st node i

theorem configure_node_is_static (app : Starlite) (route : Route) (st : BuildState) (node i : Nat) :
    ((configure_node app route st node).getNode i).is_static = (st.getNode i).is_static :=
  configure_node_proj (fun n => n.is_static) (fun _ _ _ _ => rfl) app route st node i

theorem configure_node_is_path_param_node (app : Starlite) (route : Route) (st : BuildState)
    (node i : Nat) :
    ((configure_node app route st node).getNode i).is_path_param_node =
      (st.getNode i).is_path_param_node :=
  configure_node_proj (fun n => n.is_path_param_node) (fun _ _ _ _ => rfl) app route st node i

theorem configure_node_is_path_type (app : Starlite) (route : Route) (st : BuildState)
    (node i : Nat) :
    ((configure_node app route st node).getNode i).is_path_type = (st.getNode i).is_path_type :=
  configure_node_proj (fun n => n.is_path_type) (fun _ _ _ _ => rfl) app route st node i

theorem configure_node_length (app : Starlite) (route : Route) (st : BuildState) (node : Nat) :
    (configure_node app route st node).nodes.length = st.nodes.length := by
  cases route with
  | http r =>
      show ((r.route_handler_map.foldl (http_configure_step app (Route.http r) r node)
        (st.modifyNode node _))).nodes.length = st.nodes.length
      rw [(http_foldl_state_frame app (Route.http r) r node r.route_handler_map _).1]
      exact length_modifyNode st node _
  | websocket r =>
      show (((st.modifyNode node _).modifyNode node _)).nodes.length = st.nodes.length
      rw [length_modifyNode, length_modifyNode]
  | asgi r =>
      show (((st.modifyNode node _).modifyNode node _)).nodes.length = st.nodes.length
      rw [length_modifyNode, length_modifyNode]

theorem configure_node_mount_routes (app : Starlite) (route : Route) (st : BuildState)
    (node : Nat) : (configure_node app route st node).mount_routes = st.mount_routes := by
  cases route with
  | http r =>
      show ((r.route_handler_map.foldl (http_configure_step app (Route.http r) r node)
        (st.modifyNode node _))).mount_routes = st.mount_routes
      rw [(http_foldl_state_frame app (Route.http r) r node r.route_handler_map _).2.1]
      rfl
  | websocket r => rfl
  | asgi r => rfl

theorem configure_node_plain_routes (app : Starlite) (route : Route) (st : BuildState)
    (node : Nat) : (configure_node app route st node).plain_routes = st.plain_routes := by
  cases route with
  | http r =>
      show ((r.route_handler_map.foldl (http_configure_step app (Route.http r) r node)
        (st.modifyNode node _))).plain_routes = st.plain_routes
      rw [(http_foldl_state_frame app (Route.http r) r node r.route_handler_map _).2.2]
      rfl
  | websocket r => rfl
  | asgi r => rfl

theorem ppAssign_getD (pp : Option (List (String × List PathParameterDefinition)))
    (k : String) (v : List PathParameterDefinition) :
    (ppAssign pp k v).getD [] = upsert (pp.getD []) k v := rfl

theorem ppTruthy_false_getD (pp : Option (List (String × List PathParameterDefinition)))
    (h : ppTruthy pp = false) : pp.getD [] = [] := by
  cases pp with
  | none => rfl
  | some m =>
      simp [ppTruthy] at h
      simp [h]

theorem http_step_getNode_self (app : Starlite) (route : Route) (r : HTTPRouteData)
    (node : Nat) (st : BuildState) (e : String × (RouteHandler × Nat))
    (hnode : node < st.nodes.length) :
    (http_configure_step app route r node st e).getNode node =
      { st.getNode node with
        asgi_handlers := upsert (st.getNode node).asgi_handlers e.1
          { asgi_app := build_route_middleware_stack app route e.2.1
            handler := e.2.1 }
        path_parameters := ppAssign (st.getNode node).path_parameters e.1 r.path_parameters } :=
  getNode_modifyNode_self st node _ hnode

theorem http_foldl_lookup_not_mem (app : Starlite) (route : Route) (r : HTTPRouteData)
    (node : Nat) (l : List (String × (RouteHandler × Nat))) (st : BuildState)
    (hnode : node < st.nodes.length) (k : String) (hk : k ∉ l.map Prod.fst) :
    lookupKey ((l.foldl (http_configure_step app route r node) st).getNode node).asgi_handlers k =
      lookupKey (st.getNode node).asgi_handlers k ∧
    lookupKey (((l.foldl (http_configure_step app route r node) st).getNode node).path_parameters.getD []) k =
      lookupKey ((st.getNode node).path_parameters.getD []) k := by
  induction l generalizing st with
  | nil => exact ⟨rfl, rfl⟩
  | cons e rest ih =>
      have hk1 : k ≠ e.1 := by
        intro he
        exact hk (by simp [he])
      have hkrest : k ∉ rest.map Prod.fst := by
        intro hm
        exact hk (by simp [hm])
      rw [List.foldl_cons]
      have hnode' : node < (http_configure_step app route r node st e).nodes.length := by
        simpa [http_configure_step, length_modifyNode] using hnode
      have ihr := ih (http_configure_step app route r node st e) hnode' hkrest
      rw [ihr.1, ihr.2, http_step_getNode_self app route r node st e hnode]
      constructor
      · exact lookupKey_upsert_ne _ _ _ _ hk1
      · rw [ppAssign_getD]
        exact lookupKey_upsert_ne _ _ _ _ hk1

theorem http_foldl_lookup_mem (app : Starlite) (route : Route) (r : HTTPRouteData)
    (node : Nat) (l : List (String × (RouteHandler × Nat))) (st : BuildState)
    (hnode : node < st.nodes.length) (hnd : (l.map Prod.fst).Nodup)
    (method : String) (handler : RouteHandler) (extra : Nat)
    (hmem : (method, (handler, extra)) ∈ l) :
    lookupKey ((l.foldl (http_configure_step app route r node) st).getNode node).asgi_handlers method =
      some { asgi_app := build_route_middleware_stack app route handler, handler := handler } ∧
    lookupKey (((l.foldl (http_configure_step app route r node) st).getNode node).path_parameters.getD []) method =
      some r.path_parameters := by
  induction l generalizing st with
  | nil => simp at hmem
  | cons e rest ih =>
      obtain ⟨m0, h0, x0⟩ := e
      have hnode' : node < (http_configure_step app route r node st (m0, (h0, x0))).nodes.length := by
        simpa [http_configure_step, length_modifyNode] using hnode
      rw [List.foldl_cons]
      rcases List.mem_cons.mp hmem with he | hrest
      · obtain ⟨he1, he2, he3⟩ : method = m0 ∧ handler = h0 ∧ extra = x0 := by
          injection he with a b
          injection b with c d
          exact ⟨a, c, d⟩
        subst he1
        subst he2
        have hnm : method ∉ rest.map Prod.fst := by
          have h2 : (method :: rest.map Prod.fst).Nodup := by simpa using hnd
          exact (List.nodup_cons.mp h2).1
        have hpres := http_foldl_lookup_not_mem app route r node rest
          (http_configure_step app route r node st (method, (handler, x0))) hnode' method hnm
        rw [hpres.1, hpres.2, http_step_getNode_self app route r node st _ hnode]
        constructor
        · exact lookupKey_upsert_self _ _ _
        · rw [ppAssign_getD]
          exact lookupKey_upsert_self _ _ _
      · have hndr : (rest.map Prod.fst).Nodup := by
          have h2 : (m0 :: rest.map Prod.fst).Nodup := by simpa using hnd
          exact (List.nodup_cons.mp h2).2
        exact ih (http_configure_step app route r node st (m0, (h0, x0))) hnode' hndr hrest

theorem normalizePP_asgi_handlers (n : RouteTrieNode) :
    (normalizePP n).asgi_handlers = n.asgi_handlers := by
  cases h : ppTruthy n.path_parameters <;> simp [normalizePP, h]

theorem normalizePP_ppLookup (n : RouteTrieNode) (k : String) :
    lookupKey ((normalizePP n).path_parameters.getD []) k =
      lookupKey (n.path_parameters.getD []) k := by
  cases h : ppTruthy n.path_parameters
  · simp only [normalizePP, h, Bool.false_eq_true, if_false]
    rw [ppTruthy_false_getD n.path_parameters h]
    rfl
  · simp [normalizePP, h]

theorem http_foldl_getNode_ne (app : Starlite) (route : Route) (r : HTTPRouteData)
    (node : Nat) (l : List (String × (RouteHandler × Nat))) (st : BuildState)
    (i : Nat) (hi : i ≠ node) :
    (l.foldl (http_configure_step app route r node) st).getNode i = st.getNode i := by
  induction l generalizing st with
  | nil => rfl
  | cons e rest ih =>
      rw [List.foldl_cons, ih]
      exact getNode_modifyNode_ne st node i _ hi

theorem configure_node_getNode_ne (app : Starlite) (route : Route) (st : BuildState)
    (node i : Nat) (hi : i ≠ node) :
    (configure_node app route st node).getNode i = st.getNode i := by
  cases route with
  | http r =>
      show (r.route_handler_map.foldl (http_configure_step app (Route.http r) r node)
        (st.modifyNode node normalizePP)).getNode i = st.getNode i
      rw [http_foldl_getNode_ne app (Route.http r) r node r.route_handler_map _ i hi]
      exact getNode_modifyNode_ne st node i _ hi
  | websocket r =>
      show (((st.modifyNode node normalizePP).modifyNode node _)).getNode i = st.getNode i
      rw [getNode_modifyNode_ne _ node i _ hi]
      exact getNode_modifyNode_ne st node i _ hi
  | asgi r =>
      show (((st.modifyNode node normalizePP).modifyNode node _)).getNode i = st.getNode i
      rw [getNode_modifyNode_ne _ node i _ hi]
      exact getNode_modifyNode_ne st node i _ hi

theorem configure_ws_getNode (app : Starlite) (r : WebSocketRouteData) (st : BuildState)
    (node : Nat) (hnode : node < st.nodes.length) :
    (configure_node app (Route.websocket r) st node).getNode node =
      { normalizePP (st.getNode node) with
        asgi_handlers := upsert (normalizePP (st.getNode node)).asgi_handlers "websocket"
          { asgi_app := build_route_middleware_stack app (Route.websocket r) r.route_handler
            handler := r.route_handler }
        path_parameters := ppAssign (normalizePP (st.getNode node)).path_parameters "websocket"
          r.path_parameters } := by
  show (((st.modifyNode node normalizePP).modifyNode node _)).getNode node = _
  rw [getNode_modifyNode_self _ node _ (by simpa [BuildState.modifyNode, length_modifyAt] using hnode),
    getNode_modifyNode_self st node normalizePP hnode]

theorem configure_asgi_getNode (app : Starlite) (r : ASGIRouteData) (st : BuildState)
    (node : Nat) (hnode : node < st.nodes.length) :
    (configure_node app (Route.asgi r) st node).getNode node =
      { normalizePP (st.getNode node) with
        asgi_handlers := upsert (normalizePP (st.getNode node)).asgi_handlers "asgi"
          { asgi_app := build_route_middleware_stack app (Route.asgi r) r.route_handler
            handler := r.route_handler }
        path_parameters := ppAssign (normalizePP (st.getNode node)).path_parameters "asgi"
          r.path_parameters
        is_asgi := true } := by
  show (((st.modifyNode node normalizePP).modifyNode node _)).getNode node = _
  rw [getNode_modifyNode_self _ node _ (by simpa [BuildState.modifyNode, length_modifyAt] using hnode),
    getNode_modifyNode_self st node normalizePP hnode]

/-- C8: configure_node stores, per connection kind, the pair of the
composed middleware stack and the original unwrapped handler, together
with the route's ordered path-parameter list: for an HTTP route under
every declared method key, for a WebSocket route under the key
"websocket", and for a raw-stream route under the key "asgi" with the
node's is_asgi flag set. -/
theorem spec_c8 (app : Starlite) (st : BuildState) (node : Nat) (route : Route)
    (hnode : node < st.nodes.length) :
    (∀ r, route = Route.http r → (r.route_handler_map.map Prod.fst).Nodup →
      ∀ method handler extra, (method, (handler, extra)) ∈ r.route_handler_map →
        lookupKey ((configure_node app route st node).getNode node).asgi_handlers method =
          some { asgi_app := build_route_middleware_stack app route handler
                 handler := handler } ∧
        ppLookup ((configure_node app route st node).getNode node) method =
          some r.path_parameters) ∧
    (∀ r, route = Route.websocket r →
        lookupKey ((configure_node app route st node).getNode node).asgi_handlers "websocket" =
          some { asgi_app := build_route_middleware_stack app route r.route_handler
                 handler := r.route_handler } ∧
        ppLookup ((configure_node app route st node).getNode node) "websocket" =
          some r.path_parameters) ∧
    (∀ r, route = Route.asgi r →
        lookupKey ((configure_node app route st node).getNode node).asgi_handlers "asgi" =
          some { asgi_app := build_route_middleware_stack app route r.route_handler
                 handler := r.route_handler } ∧
        ppLookup ((configure_node app route st node).getNode node) "asgi" =
          some r.path_parameters ∧
        ((configure_node app route st node).getNode node).is_asgi = true) := by
  refine ⟨?_, ?_, ?_⟩
  · intro r hr hnd method handler extra hmem
    subst hr
    have hnode1 : node < (st.modifyNode node normalizePP).nodes.length := by
      simpa [length_modifyNode] using hnode
    have h := http_foldl_lookup_mem app (Route.http r) r node r.route_handler_map
      (st.modifyNode node normalizePP) hnode1 hnd method handler extra hmem
    exact ⟨h.1, h.2⟩
  · intro r hr
    subst hr
    rw [ppLookup, configure_ws_getNode app r st node hnode]
    exact ⟨lookupKey_upsert_self _ _ _, by rw [ppAssign_getD]; exact lookupKey_upsert_self _ _ _⟩
  · intro r hr
    subst hr
    rw [ppLookup, configure_asgi_getNode app r st node hnode]
    exact ⟨lookupKey_upsert_self _ _ _,
      by rw [ppAssign_getD]; exact lookupKey_upsert_self _ _ _, rfl⟩

/-- Witness for C8 at a concrete WebSocket route on the initial state. -/
theorem spec_c8_witness :
    lookupKey ((configure_node app0 wsRoute0 initialBuildState 0).getNode 0).asgi_handlers
        "websocket" =
      some { asgi_app := build_route_middleware_stack app0 wsRoute0 handler0
             handler := handler0 } ∧
    ppLookup ((configure_node app0 wsRoute0 initialBuildState 0).getNode 0) "websocket" =
      some [] := by
  have h := spec_c8 app0 initialBuildState 0 wsRoute0 (by decide)
  exact h.2.1 _ rfl

/-- C10: configure_node only adds or overwrites the asgi_handlers and
path_parameters entries under the keys the route declares; entries under
any other key, all other node fields, every other node, the arena size
and the two auxiliary indexes are unchanged, and is_asgi changes only for
a raw-stream route (where it becomes true). -/
theorem spec_c10 (app : Starlite) (st : BuildState) (node : Nat) (route : Route)
    (hnode : node < st.nodes.length) :
    (∀ k, k ∉ declared_kind_keys route →
        lookupKey ((configure_node app route st node).getNode node).asgi_handlers k =
          lookupKey (st.getNode node).asgi_handlers k ∧
        ppLookup ((configure_node app route st node).getNode node) k =
          ppLookup (st.getNode node) k) ∧
    ((configure_node app route st node).getNode node).children =
      (st.getNode node).children ∧
    ((configure_node app route st node).getNode node).child_keys =
      (st.getNode node).child_keys ∧
    ((configure_node app route st node).getNode node).is_mount =
      (st.getNode node).is_mount ∧
    ((configure_node app route st node).getNode node).is_static =
      (st.getNode node).is_static ∧
    ((configure_node app route st node).getNode node).is_path_param_node =
      (st.getNode node).is_path_param_node ∧
    ((configure_node app route st node).getNode node).is_path_type =
      (st.getNode node).is_path_type ∧
    ((configure_node app route st node).getNode node).is_asgi =
      (match route with
       | Route.asgi _ => true
       | _ => (st.getNode node).is_asgi) ∧
    (∀ i, i ≠ node → (configure_node app route st node).getNode i = st.getNode i) ∧
    (configure_node app route st node).nodes.length = st.nodes.length ∧
    (configure_node app route st node).mount_routes = st.mount_routes ∧
    (configure_node app route st node).plain_routes = st.plain_routes := by
  refine ⟨?_, configure_node_children app route st node node,
    configure_node_child_keys app route st node node,
    configure_node_is_mount app route st node node,
    configure_node_is_static app route st node node,
    configure_node_is_path_param_node app route st node node,
    configure_node_is_path_type app route st node node, ?_,
    fun i hi => configure_node_getNode_ne app route st node i hi,
    configure_node_length app route st node,
    configure_node_mount_routes app route st node,
    configure_node_plain_routes app route st node⟩
  · intro k hk
    cases route with
    | http r =>
        have hnode1 : node < (st.modifyNode node normalizePP).nodes.length := by
          simpa [length_modifyNode] using hnode
        have hk' : k ∉ r.route_handler_map.map Prod.fst := hk
        have h := http_foldl_lookup_not_mem app (Route.http r) r node r.route_handler_map
          (st.modifyNode node normalizePP) hnode1 k hk'
        have hmn : (st.modifyNode node normalizePP).getNode node = normalizePP (st.getNode node) :=
          getNode_modifyNode_self st node normalizePP hnode
        constructor
        · show lookupKey ((configure_node app (Route.http r) st node).getNode node).asgi_handlers k = _
          rw [show (configure_node app (Route.http r) st node) =
            r.route_handler_map.foldl (http_configure_step app (Route.http r) r node)
              (st.modifyNode node normalizePP) from rfl]
          rw [h.1, hmn, normalizePP_asgi_handlers]
        · show ppLookup ((configure_node app (Route.http r) st node).getNode node) k = _
          rw [ppLookup, show (configure_node app (Route.http r) st node) =
            r.route_handler_map.foldl (http_configure_step app (Route.http r) r node)
              (st.modifyNode node normalizePP) from rfl]
          rw [h.2, hmn, normalizePP_ppLookup]
          rfl
    | websocket r =>
        have hkws : k ≠ "websocket" := by
          intro he
          exact hk (by simp [declared_kind_keys, he])
        rw [ppLookup, configure_ws_getNode app r st node hnode]
        constructor
        · show lookupKey (upsert (normalizePP (st.getNode node)).asgi_handlers "websocket" _) k = _
          rw [lookupKey_upsert_ne _ _ _ _ hkws, normalizePP_asgi_handlers]
        · show lookupKey ((ppAssign (normalizePP (st.getNode node)).path_parameters "websocket" _).getD []) k = _
          rw [ppAssign_getD, lookupKey_upsert_ne _ _ _ _ hkws, normalizePP_ppLookup]
          rfl
    | asgi r =>
        have hkws : k ≠ "asgi" := by
          intro he
          exact hk (by simp [declared_kind_keys, he])
        rw [ppLookup, configure_asgi_getNode app r st node hnode]
        constructor
        · show lookupKey (upsert (normalizePP (st.getNode node)).asgi_handlers "asgi" _) k = _
          rw [lookupKey_upsert_ne _ _ _ _ hkws, normalizePP_asgi_handlers]
        · show lookupKey ((ppAssign (normalizePP (st.getNode node)).path_parameters "asgi" _).getD []) k = _
          rw [ppAssign_getD, lookupKey_upsert_ne _ _ _ _ hkws, normalizePP_ppLookup]
          rfl
  · cases route with
    | http r =>
        show ((r.route_handler_map.foldl (http_configure_step app (Route.http r) r node)
          (st.modifyNode node normalizePP)).getNode node).is_asgi = (st.getNode node).is_asgi
        rw [http_foldl_proj (fun n => n.is_asgi) (fun _ _ _ => rfl)]
        exact getNode_modifyNode_proj (fun n => n.is_asgi) st node normalizePP
          (fun n => by cases h : ppTruthy n.path_parameters <;> simp [normalizePP, h]) node
    | websocket r =>
        show ((configure_node app (Route.websocket r) st node).getNode node).is_asgi =
          (st.getNode node).is_asgi
        rw [configure_ws_getNode app r st node hnode]
        show (normalizePP (st.getNode node)).is_asgi = (st.getNode node).is_asgi
        cases h : ppTruthy (st.getNode node).path_parameters <;> simp [normalizePP, h]
    | asgi r =>
        show ((configure_node app (Route.asgi r) st node).getNode node).is_asgi = true
        rw [configure_asgi_getNode app r st node hnode]

/-- Witness for C10: configuring the concrete WebSocket route on the
initial state leaves the entry under the key "GET" (not declared by the
route) unset and leaves the root node's children empty. -/
theorem spec_c10_witness :
    lookupKey ((configure_node app0 wsRoute0 initialBuildState 0).getNode 0).asgi_handlers
        "GET" = none ∧
    ((configure_node app0 wsRoute0 initialBuildState 0).getNode 0).children = [] := by
  have h := spec_c10 app0 initialBuildState 0 wsRoute0 (by decide)
  have h1 := (h.1 "GET" (by decide)).1
  refine ⟨?_, ?_⟩
  · rw [h1]
    rfl
  · rw [h.2.1]
    rfl

theorem add_route_non_mount (app : Starlite) (st : BuildState) (root : Nat) (route : Route)
    (hm : Route.is_mount route = false) :
    add_route_to_trie app st root route = add_plain_or_param app st root route := by
  cases route with
  | http r => rfl
  | websocket r => rfl
  | asgi r =>
      have hmr : r.route_handler.is_mount = false := hm
      simp [add_route_to_trie, hmr]

/-- C3: for every non-mount route with no path parameters,
add_route_to_trie adds the route path to plain_routes, ensures the root
has a direct child keyed by the entire path string - allocating exactly
one fresh node when that key is absent and allocating nothing while
reusing the existing child otherwise - and returns that child as the
configured terminal node. -/
theorem spec_c3 (app : Starlite) (st : BuildState) (root : Nat) (route : Route)
    (hroot : root < st.nodes.length)
    (hm : Route.is_mount route = false)
    (hp : Route.path_parameters route = []) :
    Route.path route ∈ (add_route_to_trie app st root route).1.plain_routes ∧
    lookupKey ((add_route_to_trie app st root route).1.getNode root).children
        (NodeKey.literal (Route.path route)) = some (add_route_to_trie app st root route).2 ∧
    (match lookupKey (st.getNode root).children (NodeKey.literal (Route.path route)) with
     | some child =>
         (add_route_to_trie app st root route).2 = child ∧
         (add_route_to_trie app st root route).1.nodes.length = st.nodes.length
     | none =>
         (add_route_to_trie app st root route).2 = st.nodes.length ∧
         (add_route_to_trie app st root route).1.nodes.length = st.nodes.length + 1) := by
  have hempty : (Route.path_parameters route).isEmpty = true := by
    rw [hp]
    rfl
  rw [add_route_non_mount app st root route hm]
  cases hlk : lookupKey (st.getNode root).children (NodeKey.literal (Route.path route)) with
  | some child =>
      have hres : add_plain_or_param app st root route =
          (configure_node app route
            { st with plain_routes := setInsert st.plain_routes (Route.path route) } child,
           child) := by
        simp only [add_plain_or_param, hempty, if_true, hlk]
      rw [hres]
      refine ⟨?_, ?_, rfl, ?_⟩
      · rw [configure_node_plain_routes]
        exact mem_setInsert_self st.plain_routes (Route.path route)
      · rw [configure_node_children]
        exact hlk
      · rw [configure_node_length]
  | none =>
      simp only [add_plain_or_param, hempty, if_true, hlk]
      refine ⟨?_, ?_, trivial, ?_⟩
      · rw [configure_node_plain_routes, plain_routes_modifyNode]
        exact mem_setInsert_self st.plain_routes (Route.path route)
      · rw [configure_node_children]
        rw [getNode_modifyNode_self _ root _ (by simpa using Nat.lt_succ_of_lt hroot)]
        exact lookupKey_upsert_self _ _ _
      · rw [configure_node_length, length_modifyNode]
        simp

/-- Witness for C3: inserting the concrete plain HTTP route into a fresh
trie registers its path and creates the direct root child. -/
theorem spec_c3_witness :
    Route.path httpPlainRoute ∈
      (add_route_to_trie app0 initialBuildState 0 httpPlainRoute).1.plain_routes ∧
    lookupKey ((add_route_to_trie app0 initialBuildState 0 httpPlainRoute).1.getNode 0).children
        (NodeKey.literal (Route.path httpPlainRoute)) =
      some (add_route_to_trie app0 initialBuildState 0 httpPlainRoute).2 := by
  have h := spec_c3 app0 initialBuildState 0 httpPlainRoute (by decide) (by rfl) (by rfl)
  exact ⟨h.1, h.2.1⟩

/-- C9: when the mount route's full path string is already a key of the
children of the node handed to add_mount_route (the trie root as called
from add_route_to_trie), no per-component descent happens and no node is
created: the walk-start node itself is marked is_mount (and is_static per
the handler), and for a non-root path both mount_routes and the root's
children entry for the full path are redirected to that very node,
overwriting the previously registered child. -/
theorem spec_c9 (st : BuildState) (n : Nat) (r : ASGIRouteData)
    (hn : n < st.nodes.length)
    (hmem : (lookupKey (st.getNode n).children (NodeKey.literal r.path)).isSome = true)
    (hne : r.path ≠ "/") :
    (add_mount_route st n n r).2 = n ∧
    (add_mount_route st n n r).1.nodes.length = st.nodes.length ∧
    ((add_mount_route st n n r).1.getNode n).is_mount = true ∧
    ((add_mount_route st n n r).1.getNode n).is_static = r.route_handler.is_static ∧
    lookupKey (add_mount_route st n n r).1.mount_routes r.path = some n ∧
    lookupKey ((add_mount_route st n n r).1.getNode n).children (NodeKey.literal r.path) =
      some n := by
  simp only [add_mount_route, hmem, if_true, ne_eq, hne, not_false_eq_true]
  have hn2 : n < ((st.modifyNode n fun nd =>
      { nd with is_mount := true, is_static := r.route_handler.is_static }) : BuildState).nodes.length := by
    simpa [length_modifyNode] using hn
  refine ⟨trivial, ?_, ?_, ?_, ?_, ?_⟩
  · simp [length_modifyNode]
  · rw [getNode_modifyNode_self _ n _ (by simpa [length_modifyNode] using hn)]
    show ((st.modifyNode n _).getNode n).is_mount = true
    rw [getNode_modifyNode_self st n _ hn]
  · rw [getNode_modifyNode_self _ n _ (by simpa [length_modifyNode] using hn)]
    show ((st.modifyNode n _).getNode n).is_static = r.route_handler.is_static
    rw [getNode_modifyNode_self st n _ hn]
  · exact lookupKey_upsert_self _ _ _
  · rw [getNode_modifyNode_self _ n _ (by simpa [length_modifyNode] using hn)]
    exact lookupKey_upsert_self _ _ _

/-- Witness for C9 at a concrete state whose root already has the mount
path among its children keys. -/
theorem spec_c9_witness :
    (add_mount_route stateWithMChild 0 0 mountRouteData2).2 = 0 ∧
    lookupKey ((add_mount_route stateWithMChild 0 0 mountRouteData2).1.getNode 0).children
        (NodeKey.literal "/m") = some 0 ∧
    ((add_mount_route stateWithMChild 0 0 mountRouteData2).1.getNode 0).is_mount = true := by
  have h := spec_c9 stateWithMChild 0 mountRouteData2 (by decide) (by decide) (by decide)
  exact ⟨h.1, h.2.2.2.2.2, h.2.2.1⟩

theorem mount_step_some (st : BuildState) (cur : Nat) (c : PathComponent) (child : Nat)
    (hlk : lookupKey (st.getNode cur).children (mount_component_key c) = some child) :
    mount_step st cur c = (st, child) := by
  simp [mount_step, hlk]

theorem mount_step_none (st : BuildState) (cur : Nat) (c : PathComponent)
    (hcur : cur < st.nodes.length)
    (hlk : lookupKey (st.getNode cur).children (mount_component_key c) = none) :
    (mount_step st cur c).2 = st.nodes.length ∧
    (mount_step st cur c).1.nodes.length = st.nodes.length + 1 ∧
    (mount_step st cur c).1.getNode cur =
      { st.getNode cur with
        children := upsert (st.getNode cur).children (mount_component_key c)
          st.nodes.length } ∧
    (∀ i, i ≠ cur → (mount_step st cur c).1.getNode i = st.getNode i) ∧
    (mount_step st cur c).1.getNode st.nodes.length = create_node ∧
    (mount_step st cur c).1.mount_routes = st.mount_routes ∧
    (mount_step st cur c).1.plain_routes = st.plain_routes := by
  simp only [mount_step, hlk]
  refine ⟨trivial, ?_, ?_, ?_, ?_, rfl, rfl⟩
  · simp [length_modifyNode]
  · rw [getNode_modifyNode_self _ cur _ (by simp; omega), getNode_alloc]
  · intro i hi
    rw [getNode_modifyNode_ne _ cur i _ hi, getNode_alloc]
  · have hne : st.nodes.length ≠ cur := by omega
    rw [getNode_modifyNode_ne _ cur _ _ hne]
    exact getNode_alloc_fresh st

theorem WFState_mount_step (st : BuildState) (cur : Nat) (c : PathComponent)
    (hcur : cur < st.nodes.length) (hwf : WFState st)
    (hlk : lookupKey (st.getNode cur).children (mount_component_key c) = none) :
    WFState (mount_step st cur c).1 := by
  obtain ⟨h1, h2, h3, h4, h5, h6, h7⟩ := mount_step_none st cur c hcur hlk
  intro i k j h
  rw [h2]
  by_cases hi : i = cur
  · subst hi
    rw [h3] at h
    by_cases hk : k = mount_component_key c
    · subst hk
      rw [lookupKey_upsert_self] at h
      injection h with h
      omega
    · rw [lookupKey_upsert_ne _ _ _ _ hk] at h
      exact Nat.lt_succ_of_lt (hwf _ k j h)
  · by_cases hfresh : i = st.nodes.length
    · subst hfresh
      rw [h5] at h
      simp [create_node, lookupKey] at h
    · rw [h4 i hi] at h
      exact Nat.lt_succ_of_lt (hwf i k j h)

theorem mount_missing_empty (st : BuildState) (v : Nat) (l : List PathComponent)
    (h : (st.getNode v).children = []) : mount_missing st v l = l.length := by
  cases l with
  | nil => rfl
  | cons c rest => simp [mount_missing, h, lookupKey]

theorem mount_walk_spec (comps : List PathComponent) (st : BuildState) (cur : Nat)
    (hcur : cur < st.nodes.length) (hwf : WFState st) :
    (mount_walk st cur comps).1.nodes.length = st.nodes.length + mount_missing st cur comps ∧
    (mount_walk st cur comps).2 < (mount_walk st cur comps).1.nodes.length ∧
    WFState (mount_walk st cur comps).1 ∧
    (∀ i k j, lookupKey (st.getNode i).children k = some j →
       lookupKey ((mount_walk st cur comps).1.getNode i).children k = some j) ∧
    (∀ i k, k ∉ comps.map mount_component_key →
       lookupKey ((mount_walk st cur comps).1.getNode i).children k =
         lookupKey (st.getNode i).children k) ∧
    follow_mount_path (mount_walk st cur comps).1 cur comps =
      some (mount_walk st cur comps).2 ∧
    (mount_walk st cur comps).1.mount_routes = st.mount_routes ∧
    (mount_walk st cur comps).1.plain_routes = st.plain_routes := by
  induction comps generalizing st cur with
  | nil =>
      refine ⟨by simp [mount_walk, mount_missing], by simpa [mount_walk] using hcur,
        by simpa [mount_walk] using hwf, fun i k j h => by simpa [mount_walk] using h,
        fun i k _ => by simp [mount_walk], by simp [mount_walk, follow_mount_path],
        by simp [mount_walk], by simp [mount_walk]⟩
  | cons c rest ih =>
      simp only [mount_walk]
      cases hlk : lookupKey (st.getNode cur).children (mount_component_key c) with
      | some child =>
          rw [mount_step_some st cur c child hlk]
          have hchild : child < st.nodes.length := hwf cur _ child hlk
          obtain ⟨ih1, ih2, ih3, ih4, ih5, ih6, ih7, ih8⟩ := ih st child hchild hwf
          refine ⟨?_, ih2, ih3, ih4, ?_, ?_, ih7, ih8⟩
          · rw [ih1]
            simp [mount_missing, hlk]
          · intro i k hk
            have hkrest : k ∉ rest.map mount_component_key := by
              intro hm
              exact hk (by simp [hm])
            exact ih5 i k hkrest
          · show follow_mount_path (mount_walk st child rest).1 cur (c :: rest) = _
            have hedge : lookupKey ((mount_walk st child rest).1.getNode cur).children
                (mount_component_key c) = some child := ih4 cur _ child hlk
            simp only [follow_mount_path, hedge]
            exact ih6
      | none =>
          obtain ⟨s1, s2, s3, s4, s5, s6, s7⟩ := mount_step_none st cur c hcur hlk
          have hwf2 := WFState_mount_step st cur c hcur hwf hlk
          have hcur2 : (mount_step st cur c).2 < (mount_step st cur c).1.nodes.length := by
            rw [s1, s2]
            omega
          obtain ⟨ih1, ih2, ih3, ih4, ih5, ih6, ih7, ih8⟩ :=
            ih (mount_step st cur c).1 (mount_step st cur c).2 hcur2 hwf2
          have hmono : ∀ i k j, lookupKey (st.getNode i).children k = some j →
              lookupKey ((mount_step st cur c).1.getNode i).children k = some j := by
            intro i k j h
            by_cases hi : i = cur
            · subst hi
              rw [s3]
              by_cases hk : k = mount_component_key c
              · subst hk
                rw [hlk] at h
                exact absurd h (by simp)
              · rw [lookupKey_upsert_ne _ _ _ _ hk]
                exact h
            · rw [s4 i hi]
              exact h
          have hfreshchildren : ((mount_step st cur c).1.getNode (mount_step st cur c).2).children = [] := by
            rw [s1, s5]
            rfl
          refine ⟨?_, ih2, ih3, ?_, ?_, ?_, ?_, ?_⟩
          · rw [ih1, s2, mount_missing_empty _ _ rest hfreshchildren]
            simp [mount_missing, hlk]
            omega
          · intro i k j h
            exact ih4 i k j (hmono i k j h)
          · intro i k hk
            have hk1 : k ≠ mount_component_key c := by
              intro he
              exact hk (by simp [he])
            have hkrest : k ∉ rest.map mount_component_key := by
              intro hm
              exact hk (by simp [hm])
            rw [ih5 i k hkrest]
            by_cases hi : i = cur
            · subst hi
              rw [s3]
              exact lookupKey_upsert_ne _ _ _ _ hk1
            · rw [s4 i hi]
          · show follow_mount_path _ cur (c :: rest) = _
            have hedge0 : lookupKey ((mount_step st cur c).1.getNode cur).children
                (mount_component_key c) = some (mount_step st cur c).2 := by
              rw [s3, s1]
              exact lookupKey_upsert_self _ _ _
            have hedge := ih4 cur _ _ hedge0
            simp only [follow_mount_path, hedge]
            exact ih6
          · rw [ih7, s6]
          · rw [ih8, s7]

theorem follow_mount_congr (st st' : BuildState) :
    ∀ (comps : List PathComponent) (v : Nat),
      (∀ i k, k ∈ comps.map mount_component_key →
        lookupKey (st'.getNode i).children k = lookupKey (st.getNode i).children k) →
      follow_mount_path st' v comps = follow_mount_path st v comps := by
  intro comps
  induction comps with
  | nil =>
      intro v _
      rfl
  | cons c rest ih =>
      intro v hpres
      have hc := hpres v (mount_component_key c) (by simp)
      simp only [follow_mount_path, hc]
      cases hl : lookupKey (st.getNode v).children (mount_component_key c) with
      | none => rfl
      | some child => exact ih child (fun i k hk => hpres i k (by simp [hk]))

/-- C4: for a mount route whose full path string is not yet among the
children keys of the walk-start node, add_mount_route walks the route's
path components from that node, allocating exactly one fresh node per
component that is not already present; the reached node is marked
is_mount and carries the mounted handler's is_static; for a non-root path
the node is registered both in mount_routes under the full path and as a
direct child of the walk-start node keyed by the full path, while for the
root path "/" only mount_routes is updated. -/
theorem spec_c4 (st : BuildState) (cur : Nat) (r : ASGIRouteData)
    (hcur : cur < st.nodes.length) (hwf : WFState st)
    (habs : lookupKey (st.getNode cur).children (NodeKey.literal r.path) = none)
    (hkey : NodeKey.literal r.path ∉ r.path_components.map mount_component_key) :
    follow_mount_path (add_mount_route st cur cur r).1 cur r.path_components =
      some (add_mount_route st cur cur r).2 ∧
    ((add_mount_route st cur cur r).1.getNode (add_mount_route st cur cur r).2).is_mount =
      true ∧
    ((add_mount_route st cur cur r).1.getNode (add_mount_route st cur cur r).2).is_static =
      r.route_handler.is_static ∧
    (add_mount_route st cur cur r).1.nodes.length =
      st.nodes.length + mount_missing st cur r.path_components ∧
    lookupKey (add_mount_route st cur cur r).1.mount_routes r.path =
      some (add_mount_route st cur cur r).2 ∧
    (if r.path = "/" then
       lookupKey ((add_mount_route st cur cur r).1.getNode cur).children
         (NodeKey.literal r.path) = none
     else
       lookupKey ((add_mount_route st cur cur r).1.getNode cur).children
         (NodeKey.literal r.path) = some (add_mount_route st cur cur r).2) := by
  obtain ⟨w1, w2, w3, w4, w5, w6, w7, w8⟩ := mount_walk_spec r.path_components st cur hcur hwf
  have hnotsome : (lookupKey (st.getNode cur).children (NodeKey.literal r.path)).isSome = false := by
    rw [habs]
    rfl
  have hlew : st.nodes.length ≤ (mount_walk st cur r.path_components).1.nodes.length := by
    rw [w1]
    omega
  have hcurw : cur < (mount_walk st cur r.path_components).1.nodes.length := Nat.lt_of_lt_of_le hcur hlew
  simp only [add_mount_route, hnotsome, Bool.false_eq_true, if_false]
  by_cases hpath : r.path = "/"
  · rw [hpath] at habs hkey
    rw [hpath]
    rw [if_neg (fun h => h rfl)]
    rw [if_pos rfl]
    refine ⟨?_, ?_, ?_, ?_, ?_, ?_⟩
    · refine Eq.trans (follow_mount_congr (mount_walk st cur r.path_components).1 _
        r.path_components cur ?_) w6
      intro i k _
      show lookupKey ((((mount_walk st cur r.path_components).1.modifyNode
        (mount_walk st cur r.path_components).2 fun n =>
          { n with is_mount := true, is_static := r.route_handler.is_static }).getNode i)).children k = _
      rw [getNode_modifyNode_proj (fun n => n.children) (mount_walk st cur r.path_components).1
        (mount_walk st cur r.path_components).2 (fun n => { n with is_mount := true, is_static := r.route_handler.is_static }) (fun n => rfl) i]
    · show ((((mount_walk st cur r.path_components).1.modifyNode
        (mount_walk st cur r.path_components).2 fun n =>
          { n with is_mount := true, is_static := r.route_handler.is_static })).getNode
            (mount_walk st cur r.path_components).2).is_mount = true
      rw [getNode_modifyNode_self _ _ _ w2]
    · show ((((mount_walk st cur r.path_components).1.modifyNode
        (mount_walk st cur r.path_components).2 fun n =>
          { n with is_mount := true, is_static := r.route_handler.is_static })).getNode
            (mount_walk st cur r.path_components).2).is_static = r.route_handler.is_static
      rw [getNode_modifyNode_self _ _ _ w2]
    · show ((((mount_walk st cur r.path_components).1.modifyNode
        (mount_walk st cur r.path_components).2 fun n =>
          { n with is_mount := true, is_static := r.route_handler.is_static })).nodes).length =
        st.nodes.length + mount_missing st cur r.path_components
      rw [length_modifyNode]
      exact w1
    · exact lookupKey_upsert_self _ _ _
    · show lookupKey ((((mount_walk st cur r.path_components).1.modifyNode
        (mount_walk st cur r.path_components).2 fun n =>
          { n with is_mount := true, is_static := r.route_handler.is_static }).getNode cur)).children
            (NodeKey.literal "/") = none
      rw [getNode_modifyNode_proj (fun n => n.children) (mount_walk st cur r.path_components).1
        (mount_walk st cur r.path_components).2 (fun n => { n with is_mount := true, is_static := r.route_handler.is_static }) (fun n => rfl) cur]
      rw [w5 cur _ hkey]
      exact habs
  · rw [if_pos hpath]
    rw [if_neg hpath]
    have hcur3 : cur <
        ({ nodes := ((mount_walk st cur r.path_components).1.modifyNode (mount_walk st cur r.path_components).2 (fun n => { n with is_mount := true, is_static := r.route_handler.is_static })).nodes,
           mount_routes := upsert ((mount_walk st cur r.path_components).1.modifyNode (mount_walk st cur r.path_components).2 (fun n => { n with is_mount := true, is_static := r.route_handler.is_static })).mount_routes r.path (mount_walk st cur r.path_components).2,
           plain_routes := ((mount_walk st cur r.path_components).1.modifyNode (mount_walk st cur r.path_components).2 (fun n => { n with is_mount := true, is_static := r.route_handler.is_static })).plain_routes } : BuildState).nodes.length := by
      simpa [length_modifyNode] using hcurw
    refine ⟨?_, ?_, ?_, ?_, ?_, ?_⟩
    · refine Eq.trans (follow_mount_congr (mount_walk st cur r.path_components).1 _
        r.path_components cur ?_) w6
      intro i k hk
      have hk1 : k ≠ NodeKey.literal r.path := by
        intro he
        rw [he] at hk
        exact hkey hk
      by_cases hi : i = cur
      · rw [hi]
        rw [getNode_modifyNode_self _ cur (fun n => { n with children := upsert n.children (NodeKey.literal r.path) (mount_walk st cur r.path_components).2 }) hcur3]
        show lookupKey (upsert _ (NodeKey.literal r.path) _) k = _
        rw [lookupKey_upsert_ne _ _ _ _ hk1]
        show lookupKey ((((mount_walk st cur r.path_components).1.modifyNode
          (mount_walk st cur r.path_components).2 fun n =>
            { n with is_mount := true, is_static := r.route_handler.is_static }).getNode cur)).children k = _
        rw [getNode_modifyNode_proj (fun n => n.children) (mount_walk st cur r.path_components).1
          (mount_walk st cur r.path_components).2 (fun n => { n with is_mount := true, is_static := r.route_handler.is_static }) (fun n => rfl) cur]
      · rw [getNode_modifyNode_ne _ cur i (fun n => { n with children := upsert n.children (NodeKey.literal r.path) (mount_walk st cur r.path_components).2 }) hi]
        show lookupKey ((((mount_walk st cur r.path_components).1.modifyNode
          (mount_walk st cur r.path_components).2 fun n =>
            { n with is_mount := true, is_static := r.route_handler.is_static }).getNode i)).children k = _
        rw [getNode_modifyNode_proj (fun n => n.children) (mount_walk st cur r.path_components).1
          (mount_walk st cur r.path_components).2 (fun n => { n with is_mount := true, is_static := r.route_handler.is_static }) (fun n => rfl) i]
    · rw [getNode_modifyNode_proj (fun n => n.is_mount) _ cur (fun n => { n with children := upsert n.children (NodeKey.literal r.path) (mount_walk st cur r.path_components).2 }) (fun n => rfl)]
      show ((((mount_walk st cur r.path_components).1.modifyNode
        (mount_walk st cur r.path_components).2 fun n =>
          { n with is_mount := true, is_static := r.route_handler.is_static })).getNode
            (mount_walk st cur r.path_components).2).is_mount = true
      rw [getNode_modifyNode_self _ _ _ w2]
    · rw [getNode_modifyNode_proj (fun n => n.is_static) _ cur (fun n => { n with children := upsert n.children (NodeKey.literal r.path) (mount_walk st cur r.path_components).2 }) (fun n => rfl)]
      show ((((mount_walk st cur r.path_components).1.modifyNode
        (mount_walk st cur r.path_components).2 fun n =>
          { n with is_mount := true, is_static := r.route_handler.is_static })).getNode
            (mount_walk st cur r.path_components).2).is_static = r.route_handler.is_static
      rw [getNode_modifyNode_self _ _ _ w2]
    · rw [length_modifyNode]
      show ((((mount_walk st cur r.path_components).1.modifyNode
        (mount_walk st cur r.path_components).2 fun n =>
          { n with is_mount := true, is_static := r.route_handler.is_static })).nodes).length =
        st.nodes.length + mount_missing st cur r.path_components
      rw [length_modifyNode]
      exact w1
    · rw [mount_routes_modifyNode]
      exact lookupKey_upsert_self _ _ _
    · rw [getNode_modifyNode_self _ cur (fun n => { n with children := upsert n.children (NodeKey.literal r.path) (mount_walk st cur r.path_components).2 }) hcur3]
      exact lookupKey_upsert_self _ _ _

/-- Witness for C4: mounting the concrete route at /m/a into a fresh trie
creates the component chain, marks the mount node, and registers it. -/
theorem spec_c4_witness :
    follow_mount_path (add_mount_route initialBuildState 0 0 mountRouteData).1 0
        mountRouteData.path_components =
      some (add_mount_route initialBuildState 0 0 mountRouteData).2 ∧
    ((add_mount_route initialBuildState 0 0 mountRouteData).1.getNode
        (add_mount_route initialBuildState 0 0 mountRouteData).2).is_mount = true ∧
    lookupKey (add_mount_route initialBuildState 0 0 mountRouteData).1.mount_routes "/m/a" =
      some (add_mount_route initialBuildState 0 0 mountRouteData).2 := by
  have h := spec_c4 initialBuildState 0 mountRouteData (by decide) WFState_initial
    (by decide) (by decide)
  exact ⟨h.1, h.2.1, h.2.2.2.2.1⟩

theorem param_step_literal_some (st : BuildState) (cur : Nat) (s : String) (child : Nat)
    (hlk : lookupKey (st.getNode cur).children (NodeKey.literal s) = some child) :
    param_step st cur (PathComponent.literal s) =
      (st.modifyNode cur (fun n => { n with child_keys := n.children.map Prod.fst }), child) := by
  simp [param_step, param_component_key, hlk]

theorem param_step_literal_none (st : BuildState) (cur : Nat) (s : String)
    (hlk : lookupKey (st.getNode cur).children (NodeKey.literal s) = none) :
    param_step st cur (PathComponent.literal s) =
      ((({ st with nodes := st.nodes ++ [create_node] } : BuildState).modifyNode cur
          (fun n => { n with children := upsert n.children (NodeKey.literal s) st.nodes.length })).modifyNode
            cur (fun n => { n with child_keys := n.children.map Prod.fst }),
       st.nodes.length) := by
  simp [param_step, param_component_key, hlk]

theorem param_step_param_some (st : BuildState) (cur : Nat) (d : PathParameterDefinition)
    (child : Nat) (htype : d.type ≠ ParamType.path)
    (hlk : lookupKey (st.getNode cur).children NodeKey.paramSentinel = some child) :
    param_step st cur (PathComponent.param d) =
      ((st.modifyNode cur (fun n => { n with is_path_param_node := true })).modifyNode cur
         (fun n => { n with child_keys := n.children.map Prod.fst }),
       child) := by
  have hlk1 : lookupKey (((st.modifyNode cur fun n =>
      { n with is_path_param_node := true }).getNode cur)).children NodeKey.paramSentinel =
      some child := by
    rw [getNode_modifyNode_proj (fun n => n.children) st cur
      (fun n => { n with is_path_param_node := true }) (fun n => rfl) cur]
    exact hlk
  simp [param_step, param_component_key, hlk1, htype]

theorem param_step_param_some_path (st : BuildState) (cur : Nat) (d : PathParameterDefinition)
    (child : Nat) (htype : d.type = ParamType.path)
    (hlk : lookupKey (st.getNode cur).children NodeKey.paramSentinel = some child) :
    param_step st cur (PathComponent.param d) =
      ((((st.modifyNode cur (fun n => { n with is_path_param_node := true })).modifyNode cur
          (fun n => { n with child_keys := n.children.map Prod.fst })).modifyNode child
            (fun n => { n with is_path_type := true })),
       child) := by
  have hlk1 : lookupKey (((st.modifyNode cur fun n =>
      { n with is_path_param_node := true }).getNode cur)).children NodeKey.paramSentinel =
      some child := by
    rw [getNode_modifyNode_proj (fun n => n.children) st cur
      (fun n => { n with is_path_param_node := true }) (fun n => rfl) cur]
    exact hlk
  simp [param_step, param_component_key, hlk1, htype]

theorem param_step_param_none (st : BuildState) (cur : Nat) (d : PathParameterDefinition)
    (htype : d.type ≠ ParamType.path)
    (hlk : lookupKey (st.getNode cur).children NodeKey.paramSentinel = none) :
    param_step st cur (PathComponent.param d) =
      (((({ nodes := (st.modifyNode cur fun n => { n with is_path_param_node := true }).nodes ++ [create_node]
            mount_routes := (st.modifyNode cur fun n => { n with is_path_param_node := true }).mount_routes
            plain_routes := (st.modifyNode cur fun n => { n with is_path_param_node := true }).plain_routes } : BuildState)).modifyNode
          cur (fun n => { n with children := upsert n.children NodeKey.paramSentinel (st.modifyNode cur fun n => { n with is_path_param_node := true }).nodes.length })).modifyNode
            cur (fun n => { n with child_keys := n.children.map Prod.fst }),
       (st.modifyNode cur fun n => { n with is_path_param_node := true }).nodes.length) := by
  have hlk1 : lookupKey (((st.modifyNode cur fun n => { n with is_path_param_node := true }).getNode cur)).children NodeKey.paramSentinel = none := by
    rw [getNode_modifyNode_proj (fun n => n.children) st cur
      (fun n => { n with is_path_param_node := true }) (fun n => rfl) cur]
    exact hlk
  simp [param_step, param_component_key, hlk1, htype]

theorem param_step_param_none_path (st : BuildState) (cur : Nat) (d : PathParameterDefinition)
    (htype : d.type = ParamType.path)
    (hlk : lookupKey (st.getNode cur).children NodeKey.paramSentinel = none) :
    param_step st cur (PathComponent.param d) =
      (((((({ nodes := (st.modifyNode cur fun n => { n with is_path_param_node := true }).nodes ++ [create_node]
              mount_routes := (st.modifyNode cur fun n => { n with is_path_param_node := true }).mount_routes
              plain_routes := (st.modifyNode cur fun n => { n with is_path_param_node := true }).plain_routes } : BuildState)).modifyNode
           cur (fun n => { n with children := upsert n.children NodeKey.paramSentinel (st.modifyNode cur fun n => { n with is_path_param_node := true }).nodes.length })).modifyNode
             cur (fun n => { n with child_keys := n.children.map Prod.fst })).modifyNode
               (st.modifyNode cur fun n => { n with is_path_param_node := true }).nodes.length
               (fun n => { n with is_path_type := true })),
       (st.modifyNode cur fun n => { n with is_path_param_node := true }).nodes.length) := by
  have hlk1 : lookupKey (((st.modifyNode cur fun n => { n with is_path_param_node := true }).getNode cur)).children NodeKey.paramSentinel = none := by
    rw [getNode_modifyNode_proj (fun n => n.children) st cur
      (fun n => { n with is_path_param_node := true }) (fun n => rfl) cur]
    exact hlk
  simp [param_step, param_component_key, hlk1, htype]

theorem WFState_modify_keep (st : BuildState) (i : Nat) (f : RouteTrieNode → RouteTrieNode)
    (hf : ∀ n, (f n).children = n.children) (h : WFState st) : WFState (st.modifyNode i f) := by
  intro a k j hl
  rw [length_modifyNode]
  refine h a k j ?_
  rw [getNode_modifyNode_proj (fun n => n.children) st i f hf a] at hl
  exact hl

theorem WFState_alloc_insert (st : BuildState) (cur : Nat) (key : NodeKey)
    (hcur : cur < st.nodes.length) (hwf : WFState st) :
    WFState ((({ st with nodes := st.nodes ++ [create_node] } : BuildState)).modifyNode cur
      (fun n => { n with children := upsert n.children key st.nodes.length })) := by
  intro i k j h
  rw [length_modifyNode]
  show j < (st.nodes ++ [create_node]).length
  simp only [List.length_append, List.length_cons, List.length_nil]
  by_cases hi : i = cur
  · rw [hi, getNode_modifyNode_self _ cur _ (by simp; omega), getNode_alloc] at h
    by_cases hk : k = key
    · rw [hk, lookupKey_upsert_self] at h
      injection h with h
      omega
    · rw [lookupKey_upsert_ne _ _ _ _ hk] at h
      have := hwf cur k j h
      omega
  · rw [getNode_modifyNode_ne _ cur i _ hi, getNode_alloc] at h
    have := hwf i k j h
    omega

theorem lookup_alloc_insert_mono (st : BuildState) (cur : Nat) (key : NodeKey)
    (hlk : lookupKey (st.getNode cur).children key = none) (hcur : cur < st.nodes.length) :
    ∀ i k j, lookupKey (st.getNode i).children k = some j →
      lookupKey (((({ st with nodes := st.nodes ++ [create_node] } : BuildState)).modifyNode cur
        (fun n => { n with children := upsert n.children key st.nodes.length })).getNode i).children
          k = some j := by
  intro i k j h
  by_cases hi : i = cur
  · rw [hi] at h
    rw [hi]
    rw [getNode_modifyNode_self _ cur _ (by simp; omega), getNode_alloc]
    by_cases hk : k = key
    · exfalso
      rw [hk, hlk] at h
      cases h
    · show lookupKey (upsert (st.getNode cur).children key st.nodes.length) k = some j
      rw [lookupKey_upsert_ne _ _ _ _ hk]
      exact h
  · rw [getNode_modifyNode_ne _ cur i _ hi, getNode_alloc]
    exact h

theorem lookup_alloc_insert_self (st : BuildState) (cur : Nat) (key : NodeKey)
    (hcur : cur < st.nodes.length) :
    lookupKey (((({ st with nodes := st.nodes ++ [create_node] } : BuildState)).modifyNode cur
      (fun n => { n with children := upsert n.children key st.nodes.length })).getNode cur).children
        key = some st.nodes.length := by
  rw [getNode_modifyNode_self _ cur _ (by simp; omega), getNode_alloc]
  exact lookupKey_upsert_self _ _ _


theorem psf_lit_some (st : BuildState) (cur : Nat) (s : String) (child : Nat)
    (hlk : lookupKey (st.getNode cur).children (NodeKey.literal s) = some child) :
    (param_step st cur (PathComponent.literal s)).1 = st.modifyNode cur (fun n => { n with child_keys := n.children.map Prod.fst }) := by
  rw [param_step_literal_some st cur s child hlk]

theorem pss_lit_some (st : BuildState) (cur : Nat) (s : String) (child : Nat)
    (hlk : lookupKey (st.getNode cur).children (NodeKey.literal s) = some child) :
    (param_step st cur (PathComponent.literal s)).2 = child := by
  rw [param_step_literal_some st cur s child hlk]

theorem psf_lit_none (st : BuildState) (cur : Nat) (s : String)
    (hlk : lookupKey (st.getNode cur).children (NodeKey.literal s) = none) :
    (param_step st cur (PathComponent.literal s)).1 =
      (({ st with nodes := st.nodes ++ [create_node] } : BuildState).modifyNode cur (fun n => { n with children := upsert n.children (NodeKey.literal s) st.nodes.length })).modifyNode cur (fun n => { n with child_keys := n.children.map Prod.fst }) := by
  rw [param_step_literal_none st cur s hlk]

theorem pss_lit_none (st : BuildState) (cur : Nat) (s : String)
    (hlk : lookupKey (st.getNode cur).children (NodeKey.literal s) = none) :
    (param_step st cur (PathComponent.literal s)).2 = st.nodes.length := by
  rw [param_step_literal_none st cur s hlk]

theorem psf_par_some (st : BuildState) (cur : Nat) (d : PathParameterDefinition) (child : Nat)
    (htype : d.type ≠ ParamType.path)
    (hlk : lookupKey (st.getNode cur).children NodeKey.paramSentinel = some child) :
    (param_step st cur (PathComponent.param d)).1 = (st.modifyNode cur fun n => { n with is_path_param_node := true }).modifyNode cur (fun n => { n with child_keys := n.children.map Prod.fst }) := by
  rw [param_step_param_some st cur d child htype hlk]

theorem pss_par_some (st : BuildState) (cur : Nat) (d : PathParameterDefinition) (child : Nat)
    (htype : d.type ≠ ParamType.path)
    (hlk : lookupKey (st.getNode cur).children NodeKey.paramSentinel = some child) :
    (param_step st cur (PathComponent.param d)).2 = child := by
  rw [param_step_param_some st cur d child htype hlk]

theorem psf_par_some_path (st : BuildState) (cur : Nat) (d : PathParameterDefinition)
    (child : Nat) (htype : d.type = ParamType.path)
    (hlk : lookupKey (st.getNode cur).children NodeKey.paramSentinel = some child) :
    (param_step st cur (PathComponent.param d)).1 =
      ((st.modifyNode cur fun n => { n with is_path_param_node := true }).modifyNode cur (fun n => { n with child_keys := n.children.map Prod.fst })).modifyNode child (fun n => { n with is_path_type := true }) := by
  rw [param_step_param_some_path st cur d child htype hlk]

theorem pss_par_some_path (st : BuildState) (cur : Nat) (d : PathParameterDefinition)
    (child : Nat) (htype : d.type = ParamType.path)
    (hlk : lookupKey (st.getNode cur).children NodeKey.paramSentinel = some child) :
    (param_step st cur (PathComponent.param d)).2 = child := by
  rw [param_step_param_some_path st cur d child htype hlk]

theorem psf_par_none (st : BuildState) (cur : Nat) (d : PathParameterDefinition)
    (htype : d.type ≠ ParamType.path)
    (hlk : lookupKey (st.getNode cur).children NodeKey.paramSentinel = none) :
    (param_step st cur (PathComponent.param d)).1 =
      (({ nodes := (st.modifyNode cur fun n => { n with is_path_param_node := true }).nodes ++ [create_node], mount_routes := (st.modifyNode cur fun n => { n with is_path_param_node := true }).mount_routes, plain_routes := (st.modifyNode cur fun n => { n with is_path_param_node := true }).plain_routes } : BuildState).modifyNode cur (fun n => { n with children := upsert n.children NodeKey.paramSentinel (st.modifyNode cur fun n => { n with is_path_param_node := true }).nodes.length })).modifyNode cur (fun n => { n with child_keys := n.children.map Prod.fst }) := by
  rw [param_step_param_none st cur d htype hlk]

theorem pss_par_none (st : BuildState) (cur : Nat) (d : PathParameterDefinition)
    (htype : d.type ≠ ParamType.path)
    (hlk : lookupKey (st.getNode cur).children NodeKey.paramSentinel = none) :
    (param_step st cur (PathComponent.param d)).2 = (st.modifyNode cur fun n => { n with is_path_param_node := true }).nodes.length := by
  rw [param_step_param_none st cur d htype hlk]

theorem psf_par_none_path (st : BuildState) (cur : Nat) (d : PathParameterDefinition)
    (htype : d.type = ParamType.path)
    (hlk : lookupKey (st.getNode cur).children NodeKey.paramSentinel = none) :
    (param_step st cur (PathComponent.param d)).1 =
      ((({ nodes := (st.modifyNode cur fun n => { n with is_path_param_node := true }).nodes ++ [create_node], mount_routes := (st.modifyNode cur fun n => { n with is_path_param_node := true }).mount_routes, plain_routes := (st.modifyNode cur fun n => { n with is_path_param_node := true }).plain_routes } : BuildState).modifyNode cur (fun n => { n with children := upsert n.children NodeKey.paramSentinel (st.modifyNode cur fun n => { n with is_path_param_node := true }).nodes.length })).modifyNode cur (fun n => { n with child_keys := n.children.map Prod.fst })).modifyNode (st.modifyNode cur fun n => { n with is_path_param_node := true }).nodes.length (fun n => { n with is_path_type := true }) := by
  rw [param_step_param_none_path st cur d htype hlk]

theorem pss_par_none_path (st : BuildState) (cur : Nat) (d : PathParameterDefinition)
    (htype : d.type = ParamType.path)
    (hlk : lookupKey (st.getNode cur).children NodeKey.paramSentinel = none) :
    (param_step st cur (PathComponent.param d)).2 = (st.modifyNode cur fun n => { n with is_path_param_node := true }).nodes.length := by
  rw [param_step_param_none_path st cur d htype hlk]

theorem param_step_spec (st : BuildState) (cur : Nat) (c : PathComponent)
    (hcur : cur < st.nodes.length) (hwf : WFState st) :
    (param_step st cur c).2 < (param_step st cur c).1.nodes.length ∧
    WFState (param_step st cur c).1 ∧
    st.nodes.length ≤ (param_step st cur c).1.nodes.length ∧
    (∀ i k j, lookupKey (st.getNode i).children k = some j →
       lookupKey ((param_step st cur c).1.getNode i).children k = some j) ∧
    lookupKey ((param_step st cur c).1.getNode cur).children (param_component_key c) =
      some (param_step st cur c).2 ∧
    (∀ i, (st.getNode i).is_path_type = true →
       ((param_step st cur c).1.getNode i).is_path_type = true) ∧
    (∀ d, c = PathComponent.param d → d.type = ParamType.path →
       ((param_step st cur c).1.getNode (param_step st cur c).2).is_path_type = true) ∧
    ((∀ d, c = PathComponent.param d → d.type ≠ ParamType.path) →
       ∀ i, ((param_step st cur c).1.getNode i).is_path_type = (st.getNode i).is_path_type) ∧
    (param_step st cur c).1.mount_routes = st.mount_routes ∧
    (param_step st cur c).1.plain_routes = st.plain_routes := by
  cases c with
  | literal s =>
      cases hlk : lookupKey (st.getNode cur).children (NodeKey.literal s) with
      | some child =>
          rw [psf_lit_some st cur s child hlk, pss_lit_some st cur s child hlk]
          refine ⟨?_, ?_, ?_, ?_, ?_, ?_, ?_, ?_, rfl, rfl⟩
          · rw [length_modifyNode]
            exact hwf cur _ child hlk
          · exact WFState_modify_keep st cur (fun n => { n with child_keys := n.children.map Prod.fst }) (fun n => rfl) hwf
          · rw [length_modifyNode]
          · intro i k j h
            rw [getNode_modifyNode_proj (fun n => n.children) st cur (fun n => { n with child_keys := n.children.map Prod.fst }) (fun n => rfl) i]
            exact h
          · rw [getNode_modifyNode_proj (fun n => n.children) st cur (fun n => { n with child_keys := n.children.map Prod.fst }) (fun n => rfl) cur]
            exact hlk
          · intro i h
            rw [getNode_modifyNode_proj (fun n => n.is_path_type) st cur (fun n => { n with child_keys := n.children.map Prod.fst }) (fun n => rfl) i]
            exact h
          · intro d hd
            cases hd
          · intro _ i
            rw [getNode_modifyNode_proj (fun n => n.is_path_type) st cur (fun n => { n with child_keys := n.children.map Prod.fst }) (fun n => rfl) i]
      | none =>
          rw [psf_lit_none st cur s hlk, pss_lit_none st cur s hlk]
          have hwf1 := WFState_alloc_insert st cur (NodeKey.literal s) hcur hwf
          refine ⟨?_, ?_, ?_, ?_, ?_, ?_, ?_, ?_, rfl, rfl⟩
          · rw [length_modifyNode, length_modifyNode]
            simp
          · exact WFState_modify_keep _ cur (fun n => { n with child_keys := n.children.map Prod.fst }) (fun n => rfl) hwf1
          · rw [length_modifyNode, length_modifyNode]
            simp
          · intro i k j h
            rw [getNode_modifyNode_proj (fun n => n.children) _ cur (fun n => { n with child_keys := n.children.map Prod.fst }) (fun n => rfl) i]
            exact lookup_alloc_insert_mono st cur (NodeKey.literal s) hlk hcur i k j h
          · rw [getNode_modifyNode_proj (fun n => n.children) _ cur (fun n => { n with child_keys := n.children.map Prod.fst }) (fun n => rfl) cur]
            exact lookup_alloc_insert_self st cur (NodeKey.literal s) hcur
          · intro i h
            rw [getNode_modifyNode_proj (fun n => n.is_path_type) _ cur (fun n => { n with child_keys := n.children.map Prod.fst }) (fun n => rfl) i]
            rw [getNode_modifyNode_proj (fun n => n.is_path_type) _ cur (fun n => { n with children := upsert n.children (NodeKey.literal s) st.nodes.length }) (fun n => rfl) i]
            rw [getNode_alloc]
            exact h
          · intro d hd
            cases hd
          · intro _ i
            rw [getNode_modifyNode_proj (fun n => n.is_path_type) _ cur (fun n => { n with child_keys := n.children.map Prod.fst }) (fun n => rfl) i]
            rw [getNode_modifyNode_proj (fun n => n.is_path_type) _ cur (fun n => { n with children := upsert n.children (NodeKey.literal s) st.nodes.length }) (fun n => rfl) i]
            rw [getNode_alloc]
  | param d =>
      have hcurA : cur < (st.modifyNode cur fun n => { n with is_path_param_node := true }).nodes.length := by
        simpa [length_modifyNode] using hcur
      have hwfA : WFState (st.modifyNode cur fun n => { n with is_path_param_node := true }) :=
        WFState_modify_keep st cur (fun n => { n with is_path_param_node := true }) (fun n => rfl) hwf
      have hchA : ∀ i, ((st.modifyNode cur fun n => { n with is_path_param_node := true }).getNode i).children = (st.getNode i).children :=
        fun i => getNode_modifyNode_proj (fun n => n.children) st cur (fun n => { n with is_path_param_node := true }) (fun n => rfl) i
      have hptA : ∀ i, ((st.modifyNode cur fun n => { n with is_path_param_node := true }).getNode i).is_path_type = (st.getNode i).is_path_type :=
        fun i => getNode_modifyNode_proj (fun n => n.is_path_type) st cur (fun n => { n with is_path_param_node := true }) (fun n => rfl) i
      cases hlk : lookupKey (st.getNode cur).children NodeKey.paramSentinel with
      | some child =>
          have hchild : child < st.nodes.length := hwf cur _ child hlk
          by_cases htype : d.type = ParamType.path
          · rw [psf_par_some_path st cur d child htype hlk, pss_par_some_path st cur d child htype hlk]
            refine ⟨?_, ?_, ?_, ?_, ?_, ?_, ?_, ?_, rfl, rfl⟩
            · rw [length_modifyNode, length_modifyNode, length_modifyNode]
              exact hchild
            · refine WFState_modify_keep _ child (fun n => { n with is_path_type := true }) (fun n => rfl) ?_
              exact WFState_modify_keep _ cur (fun n => { n with child_keys := n.children.map Prod.fst }) (fun n => rfl) hwfA
            · rw [length_modifyNode, length_modifyNode, length_modifyNode]
            · intro i k j h
              rw [getNode_modifyNode_proj (fun n => n.children) _ child (fun n => { n with is_path_type := true }) (fun n => rfl) i]
              rw [getNode_modifyNode_proj (fun n => n.children) _ cur (fun n => { n with child_keys := n.children.map Prod.fst }) (fun n => rfl) i]
              rw [hchA i]
              exact h
            · rw [getNode_modifyNode_proj (fun n => n.children) _ child (fun n => { n with is_path_type := true }) (fun n => rfl) cur]
              rw [getNode_modifyNode_proj (fun n => n.children) _ cur (fun n => { n with child_keys := n.children.map Prod.fst }) (fun n => rfl) cur]
              rw [hchA cur]
              exact hlk
            · intro i h
              by_cases hi : i = child
              · rw [hi, getNode_modifyNode_self _ child (fun n => { n with is_path_type := true }) (by
                  rw [length_modifyNode, length_modifyNode]
                  exact hchild)]
              · rw [getNode_modifyNode_ne _ child i (fun n => { n with is_path_type := true }) hi]
                rw [getNode_modifyNode_proj (fun n => n.is_path_type) _ cur (fun n => { n with child_keys := n.children.map Prod.fst }) (fun n => rfl) i]
                rw [hptA i]
                exact h
            · intro d' _ _
              rw [getNode_modifyNode_self _ child (fun n => { n with is_path_type := true }) (by
                rw [length_modifyNode, length_modifyNode]
                exact hchild)]
            · intro hno
              exact absurd htype (hno d rfl)
          · rw [psf_par_some st cur d child htype hlk, pss_par_some st cur d child htype hlk]
            refine ⟨?_, ?_, ?_, ?_, ?_, ?_, ?_, ?_, rfl, rfl⟩
            · rw [length_modifyNode, length_modifyNode]
              exact hchild
            · exact WFState_modify_keep _ cur (fun n => { n with child_keys := n.children.map Prod.fst }) (fun n => rfl) hwfA
            · rw [length_modifyNode, length_modifyNode]
            · intro i k j h
              rw [getNode_modifyNode_proj (fun n => n.children) _ cur (fun n => { n with child_keys := n.children.map Prod.fst }) (fun n => rfl) i]
              rw [hchA i]
              exact h
            · rw [getNode_modifyNode_proj (fun n => n.children) _ cur (fun n => { n with child_keys := n.children.map Prod.fst }) (fun n => rfl) cur]
              rw [hchA cur]
              exact hlk
            · intro i h
              rw [getNode_modifyNode_proj (fun n => n.is_path_type) _ cur (fun n => { n with child_keys := n.children.map Prod.fst }) (fun n => rfl) i]
              rw [hptA i]
              exact h
            · intro d' hd' htype'
              exfalso
              injection hd' with hdd
              rw [← hdd] at htype'
              exact htype htype'
            · intro _ i
              rw [getNode_modifyNode_proj (fun n => n.is_path_type) _ cur (fun n => { n with child_keys := n.children.map Prod.fst }) (fun n => rfl) i]
              rw [hptA i]
      | none =>
          have hlkA : lookupKey (((st.modifyNode cur fun n => { n with is_path_param_node := true }).getNode cur)).children NodeKey.paramSentinel = none := by
            rw [hchA cur]
            exact hlk
          have hwf2 := WFState_alloc_insert (st.modifyNode cur fun n => { n with is_path_param_node := true }) cur NodeKey.paramSentinel hcurA hwfA
          by_cases htype : d.type = ParamType.path
          · rw [psf_par_none_path st cur d htype hlk, pss_par_none_path st cur d htype hlk]
            refine ⟨?_, ?_, ?_, ?_, ?_, ?_, ?_, ?_, rfl, rfl⟩
            · rw [length_modifyNode, length_modifyNode, length_modifyNode]
              simp [length_modifyNode]
            · refine WFState_modify_keep _ _ (fun n => { n with is_path_type := true }) (fun n => rfl) ?_
              exact WFState_modify_keep _ cur (fun n => { n with child_keys := n.children.map Prod.fst }) (fun n => rfl) hwf2
            · rw [length_modifyNode, length_modifyNode, length_modifyNode]
              simp [length_modifyNode]
            · intro i k j h
              rw [getNode_modifyNode_proj (fun n => n.children) _ _ (fun n => { n with is_path_type := true }) (fun n => rfl) i]
              rw [getNode_modifyNode_proj (fun n => n.children) _ cur (fun n => { n with child_keys := n.children.map Prod.fst }) (fun n => rfl) i]
              refine lookup_alloc_insert_mono (st.modifyNode cur fun n => { n with is_path_param_node := true }) cur NodeKey.paramSentinel hlkA hcurA i k j ?_
              rw [hchA i]
              exact h
            · rw [getNode_modifyNode_proj (fun n => n.children) _ _ (fun n => { n with is_path_type := true }) (fun n => rfl) cur]
              rw [getNode_modifyNode_proj (fun n => n.children) _ cur (fun n => { n with child_keys := n.children.map Prod.fst }) (fun n => rfl) cur]
              exact lookup_alloc_insert_self (st.modifyNode cur fun n => { n with is_path_param_node := true }) cur NodeKey.paramSentinel hcurA
            · intro i h
              by_cases hi : i = (st.modifyNode cur fun n => { n with is_path_param_node := true }).nodes.length
              · rw [hi, getNode_modifyNode_self _ _ (fun n => { n with is_path_type := true }) (by
                  rw [length_modifyNode, length_modifyNode]
                  simp [length_modifyNode])]
              · rw [getNode_modifyNode_ne _ _ i (fun n => { n with is_path_type := true }) hi]
                rw [getNode_modifyNode_proj (fun n => n.is_path_type) _ cur (fun n => { n with child_keys := n.children.map Prod.fst }) (fun n => rfl) i]
                rw [getNode_modifyNode_proj (fun n => n.is_path_type) _ cur (fun n => { n with children := upsert n.children NodeKey.paramSentinel (st.modifyNode cur fun n => { n with is_path_param_node := true }).nodes.length }) (fun n => rfl) i]
                rw [getNode_alloc, hptA i]
                exact h
            · intro d' _ _
              rw [getNode_modifyNode_self _ _ (fun n => { n with is_path_type := true }) (by
                rw [length_modifyNode, length_modifyNode]
                simp [length_modifyNode])]
            · intro hno
              exact absurd htype (hno d rfl)
          · rw [psf_par_none st cur d htype hlk, pss_par_none st cur d htype hlk]
            refine ⟨?_, ?_, ?_, ?_, ?_, ?_, ?_, ?_, rfl, rfl⟩
            · rw [length_modifyNode, length_modifyNode]
              simp [length_modifyNode]
            · exact WFState_modify_keep _ cur (fun n => { n with child_keys := n.children.map Prod.fst }) (fun n => rfl) hwf2
            · rw [length_modifyNode, length_modifyNode]
              simp [length_modifyNode]
            · intro i k j h
              rw [getNode_modifyNode_proj (fun n => n.children) _ cur (fun n => { n with child_keys := n.children.map Prod.fst }) (fun n => rfl) i]
              refine lookup_alloc_insert_mono (st.modifyNode cur fun n => { n with is_path_param_node := true }) cur NodeKey.paramSentinel hlkA hcurA i k j ?_
              rw [hchA i]
              exact h
            · rw [getNode_modifyNode_proj (fun n => n.children) _ cur (fun n => { n with child_keys := n.children.map Prod.fst }) (fun n => rfl) cur]
              exact lookup_alloc_insert_self (st.modifyNode cur fun n => { n with is_path_param_node := true }) cur NodeKey.paramSentinel hcurA
            · intro i h
              rw [getNode_modifyNode_proj (fun n => n.is_path_type) _ cur (fun n => { n with child_keys := n.children.map Prod.fst }) (fun n => rfl) i]
              rw [getNode_modifyNode_proj (fun n => n.is_path_type) _ cur (fun n => { n with children := upsert n.children NodeKey.paramSentinel (st.modifyNode cur fun n => { n with is_path_param_node := true }).nodes.length }) (fun n => rfl) i]
              rw [getNode_alloc, hptA i]
              exact h
            · intro d' hd' htype'
              exfalso
              injection hd' with hdd
              rw [← hdd] at htype'
              exact htype htype'
            · intro _ i
              rw [getNode_modifyNode_proj (fun n => n.is_path_type) _ cur (fun n => { n with child_keys := n.children.map Prod.fst }) (fun n => rfl) i]
              rw [getNode_modifyNode_proj (fun n => n.is_path_type) _ cur (fun n => { n with children := upsert n.children NodeKey.paramSentinel (st.modifyNode cur fun n => { n with is_path_param_node := true }).nodes.length }) (fun n => rfl) i]
              rw [getNode_alloc, hptA i]

theorem param_walk_spec (comps : List PathComponent) (st : BuildState) (cur : Nat)
    (hcur : cur < st.nodes.length) (hwf : WFState st) :
    (param_walk st cur comps).2 < (param_walk st cur comps).1.nodes.length ∧
    WFState (param_walk st cur comps).1 ∧
    st.nodes.length ≤ (param_walk st cur comps).1.nodes.length ∧
    (∀ i k j, lookupKey (st.getNode i).children k = some j →
       lookupKey ((param_walk st cur comps).1.getNode i).children k = some j) ∧
    follow_param_path (param_walk st cur comps).1 cur comps =
      some (param_walk st cur comps).2 ∧
    (∀ i, (st.getNode i).is_path_type = true →
       ((param_walk st cur comps).1.getNode i).is_path_type = true) ∧
    (∀ pre d post, comps = pre ++ PathComponent.param d :: post → d.type = ParamType.path →
       ∃ m, follow_param_path (param_walk st cur comps).1 cur
           (pre ++ [PathComponent.param d]) = some m ∧
         ((param_walk st cur comps).1.getNode m).is_path_type = true) ∧
    ((∀ d, PathComponent.param d ∈ comps → d.type ≠ ParamType.path) →
       ∀ i, ((param_walk st cur comps).1.getNode i).is_path_type =
         (st.getNode i).is_path_type) ∧
    (param_walk st cur comps).1.mount_routes = st.mount_routes ∧
    (param_walk st cur comps).1.plain_routes = st.plain_routes := by
  induction comps generalizing st cur with
  | nil =>
      refine ⟨by simpa [param_walk] using hcur, by simpa [param_walk] using hwf,
        by simp [param_walk], fun i k j h => by simpa [param_walk] using h,
        by simp [param_walk, follow_param_path], fun i h => by simpa [param_walk] using h,
        ?_, fun _ i => by simp [param_walk], by simp [param_walk], by simp [param_walk]⟩
      intro pre d post hcomps
      exfalso
      cases pre <;> simp at hcomps
  | cons c rest ih =>
      simp only [param_walk]
      obtain ⟨s1, s2, s3, s4, s5, s6, s7, s8, s9, s10⟩ := param_step_spec st cur c hcur hwf
      obtain ⟨ih1, ih2, ih3, ih4, ih5, ih6, ih7, ih8, ih9, ih10⟩ :=
        ih (param_step st cur c).1 (param_step st cur c).2 s1 s2
      have hedge := ih4 cur _ _ s5
      refine ⟨ih1, ih2, Nat.le_trans s3 ih3, fun i k j h => ih4 i k j (s4 i k j h), ?_,
        fun i h => ih6 i (s6 i h), ?_, ?_, ih9.trans s9, ih10.trans s10⟩
      · simp only [follow_param_path, hedge]
        exact ih5
      · intro pre d post hcomps htype
        cases pre with
        | nil =>
            simp only [List.nil_append] at hcomps
            injection hcomps with h1 h2
            subst h1
            subst h2
            refine ⟨(param_step st cur (PathComponent.param d)).2, ?_, ?_⟩
            · simp only [List.nil_append, follow_param_path, hedge]
            · exact ih6 _ (s7 d rfl htype)
        | cons c' pre' =>
            simp only [List.cons_append] at hcomps
            injection hcomps with h1 h2
            subst h1
            subst h2
            obtain ⟨m, hf, hm⟩ := ih7 pre' d post rfl htype
            refine ⟨m, ?_, hm⟩
            simp only [List.cons_append, follow_param_path, hedge]
            exact hf
      · intro hno i
        have h8 := ih8 (fun d hd => hno d (List.mem_cons_of_mem c hd)) i
        rw [h8]
        exact s8 (fun d hd => hno d (by rw [hd]; exact List.mem_cons_self _ _)) i

theorem follow_param_congr (st st' : BuildState) :
    ∀ (comps : List PathComponent) (v : Nat),
      (∀ i, (st'.getNode i).children = (st.getNode i).children) →
      follow_param_path st' v comps = follow_param_path st v comps := by
  intro comps
  induction comps with
  | nil =>
      intro v _
      rfl
  | cons c rest ih =>
      intro v hpres
      simp only [follow_param_path, hpres v]
      cases hl : lookupKey (st.getNode v).children (param_component_key c) with
      | none => rfl
      | some child => exact ih child hpres

/-- C7: when add_route_to_trie inserts a parameterized route, every
parameter component whose declared type is the path-remainder type marks
the node reached through its sentinel edge with is_path_type = true,
while an insertion whose parameter components all have other declared
types changes no node's is_path_type flag at all. -/
theorem spec_c7 (app : Starlite) (st : BuildState) (root : Nat) (route : Route)
    (hroot : root < st.nodes.length) (hwf : WFState st)
    (hm : Route.is_mount route = false)
    (hp : (Route.path_parameters route).isEmpty = false) :
    (∀ pre d post, Route.path_components route = pre ++ PathComponent.param d :: post →
       d.type = ParamType.path →
       ∃ m, follow_param_path (add_route_to_trie app st root route).1 root
           (pre ++ [PathComponent.param d]) = some m ∧
         ((add_route_to_trie app st root route).1.getNode m).is_path_type = true) ∧
    ((∀ d, PathComponent.param d ∈ Route.path_components route → d.type ≠ ParamType.path) →
       ∀ i, ((add_route_to_trie app st root route).1.getNode i).is_path_type =
         (st.getNode i).is_path_type) := by
  rw [add_route_non_mount app st root route hm]
  have hred : add_plain_or_param app st root route =
      (configure_node app route (param_walk st root (Route.path_components route)).1
        (param_walk st root (Route.path_components route)).2,
       (param_walk st root (Route.path_components route)).2) := by
    simp only [add_plain_or_param, hp, Bool.false_eq_true, if_false]
  rw [hred]
  obtain ⟨w1, w2, w3, w4, w5, w6, w7, w8, w9, w10⟩ :=
    param_walk_spec (Route.path_components route) st root hroot hwf
  constructor
  · intro pre d post hcomps htype
    obtain ⟨m, hf, hmk⟩ := w7 pre d post hcomps htype
    refine ⟨m, ?_, ?_⟩
    · rw [follow_param_congr (param_walk st root (Route.path_components route)).1 _
        (pre ++ [PathComponent.param d]) root
        (fun i => configure_node_children app route _ _ i)]
      exact hf
    · rw [configure_node_is_path_type]
      exact hmk
  · intro hno i
    rw [configure_node_is_path_type]
    exact w8 hno i

/-- Witness for C7: inserting the concrete route /files/(rest:path) into
a fresh trie marks the node reached through the sentinel edge after the
literal segment files. -/
theorem spec_c7_witness :
    ∃ m, follow_param_path
        (add_route_to_trie app0 initialBuildState 0 httpParamRoute).1 0
        [PathComponent.literal "files", PathComponent.param ppdRest] = some m ∧
      ((add_route_to_trie app0 initialBuildState 0 httpParamRoute).1.getNode m).is_path_type =
        true := by
  have h := spec_c7 app0 initialBuildState 0 httpParamRoute (by decide) WFState_initial
    (by rfl) (by rfl)
  exact h.1 [PathComponent.literal "files"] ppdRest [] rfl rfl

theorem getNode_same_nodes (st st' : BuildState) (hn : st'.nodes = st.nodes) (i : Nat) :
    st'.getNode i = st.getNode i := by
  show st'.nodes.getD i create_node = st.nodes.getD i create_node
  rw [hn]

theorem PInv_same_nodes (st st' : BuildState) (hn : st'.nodes = st.nodes) (h : PInv st) :
    PInv st' := by
  intro i
  rw [getNode_same_nodes st st' hn i]
  exact h i

theorem QInv_same_nodes (st st' : BuildState) (hn : st'.nodes = st.nodes) (h : QInv st) :
    QInv st' := by
  intro i
  rw [getNode_same_nodes st st' hn i]
  exact h i

theorem WFState_same_nodes (st st' : BuildState) (hn : st'.nodes = st.nodes) (h : WFState st) :
    WFState st' := by
  intro i k j hl
  rw [getNode_same_nodes st st' hn i] at hl
  rw [hn]
  exact h i k j hl

theorem PInv_of_cases (st st' : BuildState) (h : PInv st)
    (hi : ∀ i, ((st'.getNode i).is_path_param_node = (st.getNode i).is_path_param_node ∧
        (NodeKey.paramSentinel ∈ (st'.getNode i).children.map Prod.fst ↔
         NodeKey.paramSentinel ∈ (st.getNode i).children.map Prod.fst)) ∨
      ((st'.getNode i).is_path_param_node = true ∧
        NodeKey.paramSentinel ∈ (st'.getNode i).children.map Prod.fst)) :
    PInv st' := by
  intro i
  rcases hi i with ⟨h1, h2⟩ | ⟨h1, h2⟩
  · rw [h1, h2]
    exact h i
  · rw [h1]
    exact ⟨fun _ => h2, fun _ => rfl⟩

theorem PInv_alloc (st : BuildState) (h : PInv st) :
    PInv ({ st with nodes := st.nodes ++ [create_node] } : BuildState) := by
  intro i
  rw [getNode_alloc]
  exact h i

theorem QInv_alloc (st : BuildState) (h : QInv st) :
    QInv ({ st with nodes := st.nodes ++ [create_node] } : BuildState) := by
  intro i
  rw [getNode_alloc]
  exact h i

theorem PInv_modify_keep (st : BuildState) (i : Nat) (f : RouteTrieNode → RouteTrieNode)
    (hflag : ∀ n, (f n).is_path_param_node = n.is_path_param_node)
    (hch : ∀ n, (f n).children = n.children) (h : PInv st) : PInv (st.modifyNode i f) := by
  intro a
  rw [getNode_modifyNode_proj (fun n => n.is_path_param_node) st i f hflag a]
  rw [getNode_modifyNode_proj (fun n => n.children) st i f hch a]
  exact h a

theorem PInv_insert_ne (st : BuildState) (cur : Nat) (key : NodeKey) (v : Nat)
    (hkey : key ≠ NodeKey.paramSentinel) (h : PInv st) :
    PInv (st.modifyNode cur fun n => { n with children := upsert n.children key v }) := by
  by_cases hcur : cur < st.nodes.length
  · refine PInv_of_cases st _ h (fun i => ?_)
    by_cases hi : i = cur
    · rw [hi, getNode_modifyNode_self st cur _ hcur]
      refine Or.inl ⟨rfl, ?_⟩
      show NodeKey.paramSentinel ∈ (upsert (st.getNode cur).children key v).map Prod.fst ↔ _
      rw [mem_map_fst_upsert_iff]
      constructor
      · intro hm
        rcases hm with hm | he
        · exact hm
        · exact absurd he.symm hkey
      · exact Or.inl
    · rw [getNode_modifyNode_ne st cur i _ hi]
      exact Or.inl ⟨rfl, Iff.rfl⟩
  · rw [modifyNode_out st cur _ (Nat.le_of_not_lt hcur)]
    exact h

theorem QInv_modify_grow (st : BuildState) (i : Nat) (f : RouteTrieNode → RouteTrieNode)
    (hck : ∀ n, (f n).child_keys = n.child_keys)
    (hch : ∀ n k, k ∈ n.children.map Prod.fst → k ∈ (f n).children.map Prod.fst)
    (h : QInv st) : QInv (st.modifyNode i f) := by
  by_cases hcur : i < st.nodes.length
  · intro a k hk
    by_cases ha : a = i
    · rw [ha, getNode_modifyNode_self st i f hcur] at hk ⊢
      rw [hck] at hk
      exact hch _ k (h i k hk)
    · rw [getNode_modifyNode_ne st i a f ha] at hk ⊢
      exact h a k hk
  · rw [modifyNode_out st i f (Nat.le_of_not_lt hcur)]
    exact h

theorem QInv_modify_refresh (st : BuildState) (i : Nat) (h : QInv st) :
    QInv (st.modifyNode i fun n => { n with child_keys := n.children.map Prod.fst }) := by
  by_cases hcur : i < st.nodes.length
  · intro a k hk
    by_cases ha : a = i
    · rw [ha, getNode_modifyNode_self st i _ hcur] at hk ⊢
      exact hk
    · rw [getNode_modifyNode_ne st i a _ ha] at hk ⊢
      exact h a k hk
  · rw [modifyNode_out st i _ (Nat.le_of_not_lt hcur)]
    exact h

theorem PInv_param_step (st : BuildState) (cur : Nat) (c : PathComponent)
    (hcur : cur < st.nodes.length) (h : PInv st) : PInv (param_step st cur c).1 := by
  cases c with
  | literal s =>
      cases hlk : lookupKey (st.getNode cur).children (NodeKey.literal s) with
      | some child =>
          rw [psf_lit_some st cur s child hlk]
          exact PInv_modify_keep st cur (fun n => { n with child_keys := n.children.map Prod.fst }) (fun n => rfl) (fun n => rfl) h
      | none =>
          rw [psf_lit_none st cur s hlk]
          refine PInv_modify_keep _ cur (fun n => { n with child_keys := n.children.map Prod.fst }) (fun n => rfl) (fun n => rfl) ?_
          refine PInv_insert_ne _ cur (NodeKey.literal s) st.nodes.length
            (fun he => NodeKey.noConfusion he) ?_
          exact PInv_alloc st h
  | param d =>
      have hcurA : cur < (st.modifyNode cur fun n => { n with is_path_param_node := true }).nodes.length := by
        simpa [length_modifyNode] using hcur
      cases hlk : lookupKey (st.getNode cur).children NodeKey.paramSentinel with
      | some child =>
          have hA : PInv (st.modifyNode cur fun n => { n with is_path_param_node := true }) := by
            refine PInv_of_cases st _ h (fun i => ?_)
            by_cases hi : i = cur
            · rw [hi, getNode_modifyNode_self st cur (fun n => { n with is_path_param_node := true }) hcur]
              exact Or.inr ⟨rfl, mem_map_fst_of_lookup _ _ _ hlk⟩
            · rw [getNode_modifyNode_ne st cur i (fun n => { n with is_path_param_node := true }) hi]
              exact Or.inl ⟨rfl, Iff.rfl⟩
          by_cases htype : d.type = ParamType.path
          · rw [psf_par_some_path st cur d child htype hlk]
            refine PInv_modify_keep _ child (fun n => { n with is_path_type := true }) (fun n => rfl) (fun n => rfl) ?_
            exact PInv_modify_keep _ cur (fun n => { n with child_keys := n.children.map Prod.fst }) (fun n => rfl) (fun n => rfl) hA
          · rw [psf_par_some st cur d child htype hlk]
            exact PInv_modify_keep _ cur (fun n => { n with child_keys := n.children.map Prod.fst }) (fun n => rfl) (fun n => rfl) hA
      | none =>
          have hT1 : PInv (({ nodes := (st.modifyNode cur fun n => { n with is_path_param_node := true }).nodes ++ [create_node], mount_routes := (st.modifyNode cur fun n => { n with is_path_param_node := true }).mount_routes, plain_routes := (st.modifyNode cur fun n => { n with is_path_param_node := true }).plain_routes } : BuildState).modifyNode cur (fun n => { n with children := upsert n.children NodeKey.paramSentinel (st.modifyNode cur fun n => { n with is_path_param_node := true }).nodes.length })) := by
            refine PInv_of_cases st _ h (fun i => ?_)
            by_cases hi : i = cur
            · rw [hi, getNode_modifyNode_self _ cur _ (by simp [length_modifyNode]; omega)]
              refine Or.inr ⟨?_, ?_⟩
              · show (({ nodes := (st.modifyNode cur fun n => { n with is_path_param_node := true }).nodes ++ [create_node], mount_routes := (st.modifyNode cur fun n => { n with is_path_param_node := true }).mount_routes, plain_routes := (st.modifyNode cur fun n => { n with is_path_param_node := true }).plain_routes } : BuildState).getNode cur).is_path_param_node = true
                rw [getNode_alloc, getNode_modifyNode_self st cur (fun n => { n with is_path_param_node := true }) hcur]
              · show NodeKey.paramSentinel ∈ (upsert (({ nodes := (st.modifyNode cur fun n => { n with is_path_param_node := true }).nodes ++ [create_node], mount_routes := (st.modifyNode cur fun n => { n with is_path_param_node := true }).mount_routes, plain_routes := (st.modifyNode cur fun n => { n with is_path_param_node := true }).plain_routes } : BuildState).getNode cur).children NodeKey.paramSentinel (st.modifyNode cur fun n => { n with is_path_param_node := true }).nodes.length).map Prod.fst
                rw [mem_map_fst_upsert_iff]
                exact Or.inr rfl
            · rw [getNode_modifyNode_ne _ cur i _ hi, getNode_alloc,
                getNode_modifyNode_ne st cur i (fun n => { n with is_path_param_node := true }) hi]
              exact Or.inl ⟨rfl, Iff.rfl⟩
          by_cases htype : d.type = ParamType.path
          · rw [psf_par_none_path st cur d htype hlk]
            refine PInv_modify_keep _ _ (fun n => { n with is_path_type := true }) (fun n => rfl) (fun n => rfl) ?_
            exact PInv_modify_keep _ cur (fun n => { n with child_keys := n.children.map Prod.fst }) (fun n => rfl) (fun n => rfl) hT1
          · rw [psf_par_none st cur d htype hlk]
            exact PInv_modify_keep _ cur (fun n => { n with child_keys := n.children.map Prod.fst }) (fun n => rfl) (fun n => rfl) hT1

theorem QInv_param_step (st : BuildState) (cur : Nat) (c : PathComponent)
    (h : QInv st) : QInv (param_step st cur c).1 := by
  have hgrow : ∀ (key : NodeKey) (v : Nat) (n : RouteTrieNode) (k : NodeKey),
      k ∈ n.children.map Prod.fst →
      k ∈ (upsert n.children key v).map Prod.fst := by
    intro key v n k hk
    rw [mem_map_fst_upsert_iff]
    exact Or.inl hk
  cases c with
  | literal s =>
      cases hlk : lookupKey (st.getNode cur).children (NodeKey.literal s) with
      | some child =>
          rw [psf_lit_some st cur s child hlk]
          exact QInv_modify_refresh st cur h
      | none =>
          rw [psf_lit_none st cur s hlk]
          refine QInv_modify_refresh _ cur ?_
          refine QInv_modify_grow _ cur _ (fun n => rfl) (hgrow _ _) ?_
          exact QInv_alloc st h
  | param d =>
      have hQA : QInv (st.modifyNode cur fun n => { n with is_path_param_node := true }) :=
        QInv_modify_grow st cur (fun n => { n with is_path_param_node := true }) (fun n => rfl) (fun n k hk => hk) h
      cases hlk : lookupKey (st.getNode cur).children NodeKey.paramSentinel with
      | some child =>
          by_cases htype : d.type = ParamType.path
          · rw [psf_par_some_path st cur d child htype hlk]
            refine QInv_modify_grow _ child (fun n => { n with is_path_type := true }) (fun n => rfl) (fun n k hk => hk) ?_
            exact QInv_modify_refresh _ cur hQA
          · rw [psf_par_some st cur d child htype hlk]
            exact QInv_modify_refresh _ cur hQA
      | none =>
          have hT1 : QInv (({ nodes := (st.modifyNode cur fun n => { n with is_path_param_node := true }).nodes ++ [create_node], mount_routes := (st.modifyNode cur fun n => { n with is_path_param_node := true }).mount_routes, plain_routes := (st.modifyNode cur fun n => { n with is_path_param_node := true }).plain_routes } : BuildState).modifyNode cur (fun n => { n with children := upsert n.children NodeKey.paramSentinel (st.modifyNode cur fun n => { n with is_path_param_node := true }).nodes.length })) := by
            refine QInv_modify_grow _ cur _ (fun n => rfl) (hgrow _ _) ?_
            exact QInv_alloc (st.modifyNode cur fun n => { n with is_path_param_node := true }) hQA
          by_cases htype : d.type = ParamType.path
          · rw [psf_par_none_path st cur d htype hlk]
            refine QInv_modify_grow _ _ (fun n => { n with is_path_type := true }) (fun n => rfl) (fun n k hk => hk) ?_
            exact QInv_modify_refresh _ cur hT1
          · rw [psf_par_none st cur d htype hlk]
            exact QInv_modify_refresh _ cur hT1

theorem mount_key_ne_sentinel (c : PathComponent) :
    mount_component_key c ≠ NodeKey.paramSentinel := by
  cases c <;> simp [mount_component_key]

theorem mount_step_valid (st : BuildState) (cur : Nat) (c : PathComponent)
    (hcur : cur < st.nodes.length) (hwf : WFState st) :
    (mount_step st cur c).2 < (mount_step st cur c).1.nodes.length ∧
    WFState (mount_step st cur c).1 := by
  cases hlk : lookupKey (st.getNode cur).children (mount_component_key c) with
  | some child =>
      rw [mount_step_some st cur c child hlk]
      exact ⟨hwf cur _ child hlk, hwf⟩
  | none =>
      obtain ⟨s1, s2, _⟩ := mount_step_none st cur c hcur hlk
      rw [s1, s2]
      exact ⟨by omega, WFState_mount_step st cur c hcur hwf hlk⟩

theorem PInv_mount_step (st : BuildState) (cur : Nat) (c : PathComponent)
    (h : PInv st) : PInv (mount_step st cur c).1 := by
  cases hlk : lookupKey (st.getNode cur).children (mount_component_key c) with
  | some child =>
      rw [mount_step_some st cur c child hlk]
      exact h
  | none =>
      simp only [mount_step, hlk]
      refine PInv_insert_ne _ cur (mount_component_key c) st.nodes.length
        (mount_key_ne_sentinel c) ?_
      exact PInv_alloc st h

theorem QInv_mount_step (st : BuildState) (cur : Nat) (c : PathComponent)
    (h : QInv st) : QInv (mount_step st cur c).1 := by
  cases hlk : lookupKey (st.getNode cur).children (mount_component_key c) with
  | some child =>
      rw [mount_step_some st cur c child hlk]
      exact h
  | none =>
      simp only [mount_step, hlk]
      refine QInv_modify_grow _ cur _ (fun n => rfl) ?_ ?_
      · intro n k hk
        rw [mem_map_fst_upsert_iff]
        exact Or.inl hk
      · exact QInv_alloc st h

theorem PInv_mount_walk (comps : List PathComponent) (st : BuildState) (cur : Nat)
    (hcur : cur < st.nodes.length) (hwf : WFState st) (h : PInv st) :
    PInv (mount_walk st cur comps).1 := by
  induction comps generalizing st cur with
  | nil => simpa [mount_walk] using h
  | cons c rest ih =>
      simp only [mount_walk]
      obtain ⟨s1, s2⟩ := mount_step_valid st cur c hcur hwf
      exact ih _ _ s1 s2 (PInv_mount_step st cur c h)

theorem QInv_mount_walk (comps : List PathComponent) (st : BuildState) (cur : Nat)
    (hcur : cur < st.nodes.length) (hwf : WFState st) (h : QInv st) :
    QInv (mount_walk st cur comps).1 := by
  induction comps generalizing st cur with
  | nil => simpa [mount_walk] using h
  | cons c rest ih =>
      simp only [mount_walk]
      obtain ⟨s1, s2⟩ := mount_step_valid st cur c hcur hwf
      exact ih _ _ s1 s2 (QInv_mount_step st cur c h)

theorem PInv_param_walk (comps : List PathComponent) (st : BuildState) (cur : Nat)
    (hcur : cur < st.nodes.length) (hwf : WFState st) (h : PInv st) :
    PInv (param_walk st cur comps).1 := by
  induction comps generalizing st cur with
  | nil => simpa [param_walk] using h
  | cons c rest ih =>
      simp only [param_walk]
      obtain ⟨s1, s2, _⟩ := param_step_spec st cur c hcur hwf
      exact ih _ _ s1 s2 (PInv_param_step st cur c hcur h)

theorem QInv_param_walk (comps : List PathComponent) (st : BuildState) (cur : Nat)
    (hcur : cur < st.nodes.length) (hwf : WFState st) (h : QInv st) :
    QInv (param_walk st cur comps).1 := by
  induction comps generalizing st cur with
  | nil => simpa [param_walk] using h
  | cons c rest ih =>
      simp only [param_walk]
      obtain ⟨s1, s2, _⟩ := param_step_spec st cur c hcur hwf
      exact ih _ _ s1 s2 (QInv_param_step st cur c h)

theorem PInv_configure (app : Starlite) (route : Route) (st : BuildState) (node : Nat)
    (h : PInv st) : PInv (configure_node app route st node) := by
  intro i
  rw [configure_node_is_path_param_node, configure_node_children]
  exact h i

theorem QInv_configure (app : Starlite) (route : Route) (st : BuildState) (node : Nat)
    (h : QInv st) : QInv (configure_node app route st node) := by
  intro i k hk
  rw [configure_node_child_keys] at hk
  rw [configure_node_children]
  exact h i k hk

theorem WFState_configure (app : Starlite) (route : Route) (st : BuildState) (node : Nat)
    (h : WFState st) : WFState (configure_node app route st node) := by
  intro i k j hl
  rw [configure_node_children] at hl
  rw [configure_node_length]
  exact h i k j hl

theorem WFState_insert_valid (st : BuildState) (i : Nat) (key : NodeKey) (v : Nat)
    (hv : v < st.nodes.length) (hwf : WFState st) :
    WFState (st.modifyNode i fun n => { n with children := upsert n.children key v }) := by
  by_cases hlen : i < st.nodes.length
  · intro a k j hl
    rw [length_modifyNode]
    by_cases ha : a = i
    · rw [ha, getNode_modifyNode_self st i _ hlen] at hl
      by_cases hk : k = key
      · rw [hk] at hl
        rw [lookupKey_upsert_self] at hl
        injection hl with hl
        omega
      · rw [lookupKey_upsert_ne _ _ _ _ hk] at hl
        exact hwf i k j hl
    · rw [getNode_modifyNode_ne st i a _ ha] at hl
      exact hwf a k j hl
  · rw [modifyNode_out st i _ (Nat.le_of_not_lt hlen)]
    exact hwf

theorem add_mount_invariants (st : BuildState) (cur root : Nat) (r : ASGIRouteData)
    (hcur : cur < st.nodes.length) (hroot : root < st.nodes.length)
    (hwf : WFState st) (hp : PInv st) (hq : QInv st) :
    st.nodes.length ≤ (add_mount_route st cur root r).1.nodes.length ∧
    WFState (add_mount_route st cur root r).1 ∧
    PInv (add_mount_route st cur root r).1 ∧
    QInv (add_mount_route st cur root r).1 := by
  have hgrow : ∀ (key : NodeKey) (v : Nat) (n : RouteTrieNode) (k : NodeKey),
      k ∈ n.children.map Prod.fst →
      k ∈ (upsert n.children key v).map Prod.fst := by
    intro key v n k hk
    rw [mem_map_fst_upsert_iff]
    exact Or.inl hk
  cases hmem : (lookupKey (st.getNode cur).children (NodeKey.literal r.path)).isSome with
  | true =>
      simp only [add_mount_route, hmem, if_true]
      have hwf2 : WFState (st.modifyNode cur (fun n => { n with is_mount := true, is_static := r.route_handler.is_static })) :=
        WFState_modify_keep st cur (fun n => { n with is_mount := true, is_static := r.route_handler.is_static }) (fun n => rfl) hwf
      have hp2 : PInv (st.modifyNode cur (fun n => { n with is_mount := true, is_static := r.route_handler.is_static })) :=
        PInv_modify_keep st cur (fun n => { n with is_mount := true, is_static := r.route_handler.is_static }) (fun n => rfl) (fun n => rfl) hp
      have hq2 : QInv (st.modifyNode cur (fun n => { n with is_mount := true, is_static := r.route_handler.is_static })) :=
        QInv_modify_grow st cur (fun n => { n with is_mount := true, is_static := r.route_handler.is_static }) (fun n => rfl) (fun n k hk => hk) hq
      by_cases hpath : r.path = "/"
      · rw [if_neg (fun h => h hpath)]
        refine ⟨?_, ?_, ?_, ?_⟩
        · show st.nodes.length ≤ (st.modifyNode cur (fun n => { n with is_mount := true, is_static := r.route_handler.is_static })).nodes.length
          rw [length_modifyNode]
        · exact WFState_same_nodes _ _ rfl hwf2
        · exact PInv_same_nodes _ _ rfl hp2
        · exact QInv_same_nodes _ _ rfl hq2
      · rw [if_pos hpath]
        have hv : cur < (st.modifyNode cur (fun n => { n with is_mount := true, is_static := r.route_handler.is_static })).nodes.length := by
          rw [length_modifyNode]
          exact hcur
        refine ⟨?_, ?_, ?_, ?_⟩
        · show st.nodes.length ≤ ((st.modifyNode cur (fun n => { n with is_mount := true, is_static := r.route_handler.is_static })).modifyNode root _).nodes.length
          rw [length_modifyNode, length_modifyNode]
        · exact WFState_insert_valid _ root (NodeKey.literal r.path) cur hv
            (WFState_same_nodes _ _ rfl hwf2)
        · exact PInv_insert_ne _ root (NodeKey.literal r.path) cur
            (fun he => NodeKey.noConfusion he) (PInv_same_nodes _ _ rfl hp2)
        · exact QInv_modify_grow _ root _ (fun n => rfl) (hgrow _ _)
            (QInv_same_nodes _ _ rfl hq2)
  | false =>
      simp only [add_mount_route, hmem, Bool.false_eq_true, if_false]
      obtain ⟨w1, w2, w3, _⟩ := mount_walk_spec r.path_components st cur hcur hwf
      have hpw : PInv (mount_walk st cur r.path_components).1 :=
        PInv_mount_walk r.path_components st cur hcur hwf hp
      have hqw : QInv (mount_walk st cur r.path_components).1 :=
        QInv_mount_walk r.path_components st cur hcur hwf hq
      have hlenw : st.nodes.length ≤ (mount_walk st cur r.path_components).1.nodes.length := by
        rw [w1]
        omega
      have hwf2 : WFState ((mount_walk st cur r.path_components).1.modifyNode
          (mount_walk st cur r.path_components).2 (fun n => { n with is_mount := true, is_static := r.route_handler.is_static })) :=
        WFState_modify_keep _ _ (fun n => { n with is_mount := true, is_static := r.route_handler.is_static }) (fun n => rfl) w3
      have hp2 : PInv ((mount_walk st cur r.path_components).1.modifyNode
          (mount_walk st cur r.path_components).2 (fun n => { n with is_mount := true, is_static := r.route_handler.is_static })) :=
        PInv_modify_keep _ _ (fun n => { n with is_mount := true, is_static := r.route_handler.is_static }) (fun n => rfl) (fun n => rfl) hpw
      have hq2 : QInv ((mount_walk st cur r.path_components).1.modifyNode
          (mount_walk st cur r.path_components).2 (fun n => { n with is_mount := true, is_static := r.route_handler.is_static })) :=
        QInv_modify_grow _ _ (fun n => { n with is_mount := true, is_static := r.route_handler.is_static }) (fun n => rfl) (fun n k hk => hk) hqw
      by_cases hpath : r.path = "/"
      · rw [if_neg (fun h => h hpath)]
        refine ⟨?_, ?_, ?_, ?_⟩
        · show st.nodes.length ≤ ((mount_walk st cur r.path_components).1.modifyNode
            (mount_walk st cur r.path_components).2 (fun n => { n with is_mount := true, is_static := r.route_handler.is_static })).nodes.length
          rw [length_modifyNode]
          exact hlenw
        · exact WFState_same_nodes _ _ rfl hwf2
        · exact PInv_same_nodes _ _ rfl hp2
        · exact QInv_same_nodes _ _ rfl hq2
      · rw [if_pos hpath]
        have hv : (mount_walk st cur r.path_components).2 <
            ((mount_walk st cur r.path_components).1.modifyNode
              (mount_walk st cur r.path_components).2 (fun n => { n with is_mount := true, is_static := r.route_handler.is_static })).nodes.length := by
          rw [length_modifyNode]
          exact w2
        refine ⟨?_, ?_, ?_, ?_⟩
        · show st.nodes.length ≤ (((mount_walk st cur r.path_components).1.modifyNode
            (mount_walk st cur r.path_components).2 (fun n => { n with is_mount := true, is_static := r.route_handler.is_static })).modifyNode cur _).nodes.length
          rw [length_modifyNode, length_modifyNode]
          exact hlenw
        · exact WFState_insert_valid _ cur (NodeKey.literal r.path) _ hv
            (WFState_same_nodes _ _ rfl hwf2)
        · exact PInv_insert_ne _ cur (NodeKey.literal r.path) _
            (fun he => NodeKey.noConfusion he) (PInv_same_nodes _ _ rfl hp2)
        · exact QInv_modify_grow _ cur _ (fun n => rfl) (hgrow _ _)
            (QInv_same_nodes _ _ rfl hq2)

theorem add_plain_or_param_invariants (app : Starlite) (st : BuildState) (root : Nat)
    (route : Route) (hroot : root < st.nodes.length)
    (hwf : WFState st) (hp : PInv st) (hq : QInv st) :
    st.nodes.length ≤ (add_plain_or_param app st root route).1.nodes.length ∧
    WFState (add_plain_or_param app st root route).1 ∧
    PInv (add_plain_or_param app st root route).1 ∧
    QInv (add_plain_or_param app st root route).1 := by
  cases hempty : (Route.path_parameters route).isEmpty with
  | true =>
      cases hlk : lookupKey (st.getNode root).children (NodeKey.literal (Route.path route)) with
      | some child =>
          simp only [add_plain_or_param, hempty, if_true, hlk]
          refine ⟨?_, ?_, ?_, ?_⟩
          · rw [configure_node_length]
          · exact WFState_configure app route _ child (WFState_same_nodes st _ rfl hwf)
          · exact PInv_configure app route _ child (PInv_same_nodes st _ rfl hp)
          · exact QInv_configure app route _ child (QInv_same_nodes st _ rfl hq)
      | none =>
          simp only [add_plain_or_param, hempty, if_true, hlk]
          have hwf1 : WFState ({ st with plain_routes := setInsert st.plain_routes (Route.path route) } : BuildState) :=
            WFState_same_nodes st _ rfl hwf
          have hroot1 : root < ({ st with plain_routes := setInsert st.plain_routes (Route.path route) } : BuildState).nodes.length := hroot
          refine ⟨?_, ?_, ?_, ?_⟩
          · rw [configure_node_length, length_modifyNode]
            simp
          · refine WFState_configure app route _ _ ?_
            exact WFState_alloc_insert _ root (NodeKey.literal (Route.path route)) hroot1 hwf1
          · refine PInv_configure app route _ _ ?_
            refine PInv_insert_ne _ root (NodeKey.literal (Route.path route)) _
              (fun he => NodeKey.noConfusion he) ?_
            exact PInv_alloc _ (PInv_same_nodes st _ rfl hp)
          · refine QInv_configure app route _ _ ?_
            refine QInv_modify_grow _ root _ (fun n => rfl) ?_ ?_
            · intro n k hk
              rw [mem_map_fst_upsert_iff]
              exact Or.inl hk
            · exact QInv_alloc _ (QInv_same_nodes st _ rfl hq)
  | false =>
      simp only [add_plain_or_param, hempty, Bool.false_eq_true, if_false]
      obtain ⟨_, w2, w3, _⟩ := param_walk_spec (Route.path_components route) st root hroot hwf
      refine ⟨?_, ?_, ?_, ?_⟩
      · rw [configure_node_length]
        exact w3
      · exact WFState_configure app route _ _ w2
      · exact PInv_configure app route _ _
          (PInv_param_walk (Route.path_components route) st root hroot hwf hp)
      · exact QInv_configure app route _ _
          (QInv_param_walk (Route.path_components route) st root hroot hwf hq)

theorem add_route_invariants (app : Starlite) (st : BuildState) (root : Nat)
    (route : Route) (hroot : root < st.nodes.length)
    (hwf : WFState st) (hp : PInv st) (hq : QInv st) :
    st.nodes.length ≤ (add_route_to_trie app st root route).1.nodes.length ∧
    WFState (add_route_to_trie app st root route).1 ∧
    PInv (add_route_to_trie app st root route).1 ∧
    QInv (add_route_to_trie app st root route).1 := by
  cases route with
  | http r => exact add_plain_or_param_invariants app st root (Route.http r) hroot hwf hp hq
  | websocket r =>
      exact add_plain_or_param_invariants app st root (Route.websocket r) hroot hwf hp hq
  | asgi r =>
      cases hm : r.route_handler.is_mount with
      | true =>
          simp only [add_route_to_trie, hm, if_true]
          obtain ⟨m1, m2, m3, m4⟩ := add_mount_invariants st root root r hroot hroot hwf hp hq
          refine ⟨?_, ?_, ?_, ?_⟩
          · rw [configure_node_length]
            exact m1
          · exact WFState_configure app (Route.asgi r) _ _ m2
          · exact PInv_configure app (Route.asgi r) _ _ m3
          · exact QInv_configure app (Route.asgi r) _ _ m4
      | false =>
          simp only [add_route_to_trie, hm, Bool.false_eq_true, if_false]
          exact add_plain_or_param_invariants app st root (Route.asgi r) hroot hwf hp hq

theorem PInv_initial : PInv initialBuildState := by
  intro i
  rw [getNode_initial]
  simp [create_node]

theorem QInv_initial : QInv initialBuildState := by
  intro i k hk
  rw [getNode_initial] at hk
  simp [create_node] at hk

theorem buildAll_invariants (app : Starlite) (routes : List Route) :
    0 < (buildAll app routes).nodes.length ∧ WFState (buildAll app routes) ∧
    PInv (buildAll app routes) ∧ QInv (buildAll app routes) := by
  suffices h : ∀ (l : List Route) (st : BuildState), 0 < st.nodes.length → WFState st →
      PInv st → QInv st →
      0 < (l.foldl (fun acc route => (add_route_to_trie app acc 0 route).1) st).nodes.length ∧
      WFState (l.foldl (fun acc route => (add_route_to_trie app acc 0 route).1) st) ∧
      PInv (l.foldl (fun acc route => (add_route_to_trie app acc 0 route).1) st) ∧
      QInv (l.foldl (fun acc route => (add_route_to_trie app acc 0 route).1) st) by
    exact h routes initialBuildState (by decide) WFState_initial PInv_initial QInv_initial
  intro l
  induction l with
  | nil => exact fun st h0 hwf hp hq => ⟨h0, hwf, hp, hq⟩
  | cons route rest ih =>
      intro st h0 hwf hp hq
      obtain ⟨a1, a2, a3, a4⟩ := add_route_invariants app st 0 route h0 hwf hp hq
      exact ih (add_route_to_trie app st 0 route).1 (Nat.lt_of_lt_of_le h0 a1) a2 a3 a4

theorem follow_param_keys_only (comps1 : List PathComponent) :
    ∀ (st : BuildState) (v : Nat) (comps2 : List PathComponent),
      comps1.map param_component_key = comps2.map param_component_key →
      follow_param_path st v comps1 = follow_param_path st v comps2 := by
  induction comps1 with
  | nil =>
      intro st v comps2 h
      cases comps2 with
      | nil => rfl
      | cons c2 rest2 => simp at h
  | cons c1 rest1 ih =>
      intro st v comps2 h
      cases comps2 with
      | nil => simp at h
      | cons c2 rest2 =>
          simp only [List.map_cons, List.cons.injEq] at h
          simp only [follow_param_path, h.1]
          cases hl : lookupKey (st.getNode v).children (param_component_key c2) with
          | none => rfl
          | some child => exact ih st child rest2 h.2

/-- C5: in every trie built from a fresh root by any sequence of
add_route_to_trie calls, a node's is_path_param_node flag is true exactly
when the parameter sentinel is among its children keys; and descent
through parameter components depends only on the sentinel-collapsed key
sequence, so parameter components at the same position reach the same
single sentinel-keyed child regardless of their names or declared
types. -/
theorem spec_c5 (app : Starlite) (routes : List Route) :
    (∀ i, ((buildAll app routes).getNode i).is_path_param_node = true ↔
       NodeKey.paramSentinel ∈ ((buildAll app routes).getNode i).children.map Prod.fst) ∧
    (∀ (st : BuildState) (v : Nat) (comps1 comps2 : List PathComponent),
       comps1.map param_component_key = comps2.map param_component_key →
       follow_param_path st v comps1 = follow_param_path st v comps2) := by
  constructor
  · exact (buildAll_invariants app routes).2.2.1
  · intro st v comps1 comps2 h
    exact follow_param_keys_only comps1 st v comps2 h

/-- Witness for C5: in the concrete trie for /files/(rest:path) the
"files" node carries the parameter-node flag, and two differently-named,
differently-typed parameter components descend identically. -/
theorem spec_c5_witness :
    ((buildAll app0 [httpParamRoute]).getNode 1).is_path_param_node = true ∧
    follow_param_path (buildAll app0 [httpParamRoute]) 1 [PathComponent.param ppdRest] =
      follow_param_path (buildAll app0 [httpParamRoute]) 1 [PathComponent.param ppdId] := by
  have h := spec_c5 app0 [httpParamRoute]
  constructor
  · exact (h.1 1).mpr (by decide)
  · exact h.2 (buildAll app0 [httpParamRoute]) 1 [PathComponent.param ppdRest]
      [PathComponent.param ppdId] rfl

/-- Counterexample to C6 as stated: after inserting one parameter-free
route into a fresh trie, the root's children mapping has the full path
string as a key but the root's child_keys snapshot is still empty - the
plain-route branch of add_route_to_trie never refreshes child_keys. -/
theorem spec_c6_cex :
    ¬ (∀ k, k ∈ ((buildAll appPlain [httpPlainRoute]).getNode 0).child_keys ↔
        k ∈ ((buildAll appPlain [httpPlainRoute]).getNode 0).children.map Prod.fst) :=
  fun h => absurd ((h (NodeKey.literal "/p")).mpr (by decide)) (by decide)

/-- C6 (amended): after any sequence of add_route_to_trie calls starting
from a fresh root, every node's child_keys snapshot is a subset of its
children keys; only the parameterized branch refreshes child_keys to the
full key set after each descent, while the plain-route and mount
branches leave stale snapshots behind, so the claimed equality fails. -/
theorem spec_c6 (app : Starlite) (routes : List Route) :
    ∀ i k, k ∈ ((buildAll app routes).getNode i).child_keys →
      k ∈ ((buildAll app routes).getNode i).children.map Prod.fst :=
  (buildAll_invariants app routes).2.2.2

/-- Witness for C6 (amended) on the concrete parameterized trie. -/
theorem spec_c6_witness :
    NodeKey.literal "files" ∈
      ((buildAll app0 [httpParamRoute]).getNode 0).children.map Prod.fst :=
  spec_c6 app0 [httpParamRoute] 0 (NodeKey.literal "files") (by decide)
